import Mathlib

/-!
# Verification of the Filesystem MCP Server

A shallow embedding of the repository (tools.ts, resources.ts, prompts.ts,
index.ts) together with proofs of the frozen claims about it.

The effectful Node.js filesystem API (`node:fs/promises`) is modelled as a
finite directory tree (`FSNode`) plus per-path permission predicates; each
fallible operation returns `Except String` carrying the Node errno message
it would throw.  Asynchronous handler code is sequential, so the `async`
handlers are embedded as `Except String` computations; a JavaScript
`try/catch` block is the `runCatch` combinator on such a computation.
-/

set_option maxHeartbeats 1000000

-- ===========================================================================
-- Decimal / octal digits (models Number printing used in messages)
-- ===========================================================================

/-- The character for the decimal digit `d` (`d < 10`). -/
def digitCh (d : Nat) : Char :=
  if d = 0 then '0' else if d = 1 then '1' else if d = 2 then '2'
  else if d = 3 then '3' else if d = 4 then '4' else if d = 5 then '5'
  else if d = 6 then '6' else if d = 7 then '7' else if d = 8 then '8'
  else '9'

/-- Accumulator loop producing the base-`(b2 + 2)` digits of `n` (most
significant first), prepended to `acc`.  The base is offset by two so the
division shrinks, and the structural `fuel` (any bound `≥ n`) keeps the
definition kernel-reducible. -/
def natDigitsAux (b2 : Nat) : Nat → Nat → List Char → List Char
  | 0, _, acc => acc
  | _ + 1, 0, acc => acc
  | fuel + 1, n + 1, acc =>
    natDigitsAux b2 fuel ((n + 1) / (b2 + 2)) (digitCh ((n + 1) % (b2 + 2)) :: acc)

/-- Base-`b` digit string of `n`, for `b ≥ 2`. -/
def natDigitsBase (b n : Nat) : List Char :=
  if n = 0 then ['0'] else natDigitsAux (b - 2) n n []

/-- Decimal digits of a natural number, e.g. `natDigits 50 = ['5','0']`. -/
def natDigits (n : Nat) : List Char := natDigitsBase 10 n

/-- Decimal string of a natural number (models JS number-to-string for
non-negative integers). -/
def natStr (n : Nat) : String := String.mk (natDigits n)

/-- Octal string of a natural number (models `Number.prototype.toString(8)`). -/
def octalStr (n : Nat) : String := String.mk (natDigitsBase 8 n)

/-- Decimal string of an integer. -/
def intStr (n : Int) : String :=
  if n < 0 then "-" ++ natStr n.natAbs else natStr n.toNat

-- ===========================================================================
-- Small string helpers shared by the embedded modules
-- ===========================================================================

/-- Wrap a string in ASCII single quotes, as the tool messages do. -/
def quoted (s : String) : String := "\x27" ++ s ++ "\x27"

-- Structurally recursive counterparts of the string primitives the source
-- uses (`startsWith`, `endsWith`, `slice`, `length`, `join`, …), defined on
-- the character list so that every embedded function evaluates by kernel
-- reduction.

/-- Models `String.prototype.startsWith`. -/
def strStartsWith (s pre : String) : Bool := pre.data.isPrefixOf s.data

/-- Models `String.prototype.endsWith`. -/
def strEndsWith (s suf : String) : Bool := suf.data.isSuffixOf s.data

/-- Models `s.length === 0` / falsiness of a string. -/
def strIsEmpty (s : String) : Bool := s.data.isEmpty

/-- Models `String.prototype.length` (code points; identical on the ASCII
strings involved). -/
def strLen (s : String) : Nat := s.data.length

/-- Models `s.slice(n)`. -/
def strDrop (s : String) (n : Nat) : String := String.mk (s.data.drop n)

/-- Models `s.slice(0, -n)`. -/
def strDropRight (s : String) (n : Nat) : String :=
  String.mk (s.data.take (s.data.length - n))

/-- Models `s.slice(0, n)`. -/
def strTake (s : String) (n : Nat) : String := String.mk (s.data.take n)

/-- Models `Array.prototype.join(sep)`. -/
def joinSep (sep : String) : List String → String
  | [] => ""
  | [x] => x
  | x :: y :: rest => x ++ sep ++ joinSep sep (y :: rest)

/-- Whether `needle` occurs contiguously inside the second list. -/
def subOccurs (needle : List Char) : List Char → Bool
  | [] => needle.isEmpty
  | c :: rest => List.isPrefixOf needle (c :: rest) || subOccurs needle rest

/-- Models `hay.includes(needle)`. -/
def strContains (hay needle : String) : Bool := subOccurs needle.data hay.data

/-- Replace the first `'T'` by a space (models the one
`.replace("T", " ")` call, on an ISO timestamp). -/
def replaceFirstT : List Char → List Char
  | [] => []
  | c :: rest => if c = 'T' then ' ' :: rest else c :: replaceFirstT rest

/-- Models `isoString.replace("T", " ")`. -/
def replaceTspace (s : String) : String := String.mk (replaceFirstT s.data)

/-- Models `path.join(dir, name)` for the simple two-segment uses in the
source (no `..` normalisation is ever needed there). -/
def joinPath (dir name : String) : String :=
  if strEndsWith dir "/" then dir ++ name else dir ++ "/" ++ name

/-- Segment accumulator for `splitPath`. -/
def splitSegs : List Char → List Char → List String
  | [], acc => if acc.isEmpty then [] else [String.mk acc.reverse]
  | c :: rest, acc =>
    if c = '/' then
      if acc.isEmpty then splitSegs rest []
      else String.mk acc.reverse :: splitSegs rest []
    else splitSegs rest (c :: acc)

/-- Split a slash-separated path into its non-empty segments. -/
def splitPath (p : String) : List String := splitSegs p.data []

/-- The normalisation pass of `path.resolve`: `.` segments vanish and `..`
pops the previous segment (or nothing at the root); empty segments never
reach here because `splitPath` already drops them. -/
def normSegs (acc : List String) : List String → List String
  | [] => acc.reverse
  | seg :: rest =>
    if seg = "." then normSegs acc rest
    else if seg = ".." then normSegs (acc.drop 1) rest
    else normSegs (seg :: acc) rest

/-- Models `path.resolve(cwd, p)`: an absolute `p` is resolved from itself,
a relative one from `cwd`, and the joined path is normalised — `.` and `..`
segments, duplicate separators and any trailing separator are all removed
(`cwd` is `process.cwd()`, itself already in resolved form). -/
def resolvePath (cwd p : String) : String :=
  let raw := if strStartsWith p "/" then p else cwd ++ "/" ++ p
  "/" ++ joinSep "/" (normSegs [] (splitPath raw))

/-- Models `path.dirname` for the slash-separated paths used here. -/
def dirname (p : String) : String :=
  match p.data.reverse.dropWhile (fun c => c ≠ '/') with
  | [] => "."
  | ['/'] => "/"
  | '/' :: rest => String.mk rest.reverse
  | _ => "."

/-- Models `path.extname`: the suffix of the basename from its last dot,
empty for names without a dot or for pure dotfiles such as `.env`. -/
def extname (p : String) : String :=
  let b := (p.data.reverse.takeWhile (fun c => c ≠ '/')).reverse
  let afterRev := b.reverse.takeWhile (fun c => c ≠ '.')
  if afterRev.length + 1 ≥ b.length then ""
  else String.mk ('.' :: afterRev.reverse)

/-- Models `String.prototype.toLowerCase` for the ASCII names used here. -/
def lowerStr (s : String) : String := String.mk (s.data.map Char.toLower)

/-- Models `path.relative(base, full)` for the only case the source needs:
`full` strictly below `base`. -/
def relativeTo (base full : String) : String :=
  if full = base then "" else strDrop full (strLen base + 1)

/-- Models `String.prototype.padEnd(width)` with spaces. -/
def padEnd (width : Nat) (s : String) : String :=
  s ++ String.mk (List.replicate (width - strLen s) ' ')

/-- Models `String.prototype.padStart(width)` with spaces. -/
def padStart (width : Nat) (s : String) : String :=
  String.mk (List.replicate (width - strLen s) ' ') ++ s

/-- Models `(bytes / 1024).toFixed(2)`: the kibibyte value rounded to two
decimal places (half away from zero on the exact rational value). -/
def toFixed2KB (bytes : Nat) : String :=
  let h := (bytes * 100 + 512) / 1024
  natStr (h / 100) ++ "." ++ (if h % 100 < 10 then "0" ++ natStr (h % 100) else natStr (h % 100))

/-- Models `(bytes / 1024).toFixed(1)`. -/
def toFixed1KB (bytes : Nat) : String :=
  let t := (bytes * 10 + 512) / 1024
  natStr (t / 10) ++ "." ++ natStr (t % 10)

-- ===========================================================================
-- Filesystem model (the state behind node:fs/promises)
-- ===========================================================================

/-- The metadata of `fs.Stats` that the source consumes.  Timestamps are the
ISO strings `Date.prototype.toISOString` would produce. -/
structure FileStat where
  isDirectory : Bool
  isSymbolicLink : Bool
  size : Nat
  birthtime : String
  mtime : String
  atime : String
  mode : Nat
deriving Repr

/-- A finite directory tree: the filesystem state a run of the server sees. -/
inductive FSNode where
  | file (st : FileStat) (content : String)
  | dir (st : FileStat) (children : List (String × FSNode))
deriving Repr

/-- The stat record of a node. -/
def FSNode.stat : FSNode → FileStat
  | .file st _ => st
  | .dir st _ => st

/-- Ambient process state: the directory tree, `process.cwd()`, and which
paths the process may read or write (permission bits beyond the tree). -/
structure FS where
  root : FSNode
  cwd : String
  readable : String → Bool
  writable : String → Bool

/-- First child of the given name, as `readdir` order would find it. -/
def lookupChild : List (String × FSNode) → String → Option FSNode
  | [], _ => none
  | (n, c) :: rest, seg => if n = seg then some c else lookupChild rest seg

/-- Walk a segment list down a tree. -/
def lookupNode : FSNode → List String → Option FSNode
  | n, [] => some n
  | .file _ _, _ :: _ => none
  | .dir _ children, seg :: rest =>
    match lookupChild children seg with
    | none => none
    | some c => lookupNode c rest

/-- The node addressed by an absolute path, if it exists. -/
def FS.lookup (fs : FS) (p : String) : Option FSNode :=
  lookupNode fs.root (splitPath p)

-- Node errno messages (the `message` field of the errors fs/promises throws).

def enoentMsg (syscall p : String) : String :=
  "ENOENT: no such file or directory, " ++ syscall ++ " " ++ quoted p

def eaccesMsg (syscall p : String) : String :=
  "EACCES: permission denied, " ++ syscall ++ " " ++ quoted p

def eisdirMsg (p : String) : String :=
  "EISDIR: illegal operation on a directory, read " ++ quoted p

def enotdirMsg (syscall p : String) : String :=
  "ENOTDIR: not a directory, " ++ syscall ++ " " ++ quoted p

/-- Models `fs.stat(p)`. -/
def nodeStat (fs : FS) (p : String) : Except String FileStat :=
  match fs.lookup p with
  | some n => .ok n.stat
  | none => .error (enoentMsg "stat" p)

/-- Models `fs.readFile(p, "utf8")`. -/
def nodeReadFile (fs : FS) (p : String) : Except String String :=
  match fs.lookup p with
  | none => .error (enoentMsg "open" p)
  | some (.dir _ _) => .error (eisdirMsg p)
  | some (.file _ c) => if fs.readable p then .ok c else .error (eaccesMsg "open" p)

/-- Models `fs.readdir(p, { withFileTypes: true })`: the children paired with
their nodes (a `Dirent` is the name plus the kind tests). -/
def nodeReaddir (fs : FS) (p : String) : Except String (List (String × FSNode)) :=
  match fs.lookup p with
  | none => .error (enoentMsg "scandir" p)
  | some (.file _ _) => .error (enotdirMsg "scandir" p)
  | some (.dir _ children) =>
    if fs.readable p then .ok children else .error (eaccesMsg "scandir" p)

/-- Models `fs.writeFile(p, content, "utf8")` (only the success/failure
outcome is observed by the handlers). -/
def nodeWriteFile (fs : FS) (p : String) : Except String Unit :=
  if fs.writable p then .ok () else .error (eaccesMsg "open" p)

/-- Models `fs.appendFile(p, content, "utf8")`. -/
def nodeAppendFile (fs : FS) (p : String) : Except String Unit :=
  if fs.writable p then .ok () else .error (eaccesMsg "open" p)

/-- Models `fs.mkdir(p, { recursive: true })`. -/
def nodeMkdir (fs : FS) (p : String) : Except String Unit :=
  if fs.writable p then .ok () else .error (eaccesMsg "mkdir" p)

/-- Models `fs.unlink(p)`. -/
def nodeUnlink (fs : FS) (p : String) : Except String Unit :=
  match fs.lookup p with
  | none => .error (enoentMsg "unlink" p)
  | some _ => if fs.writable p then .ok () else .error (eaccesMsg "unlink" p)

/-- Models `fs.access(p)` used as an existence test in `try/catch`. -/
def nodeAccess (fs : FS) (p : String) : Bool :=
  (fs.lookup p).isSome

-- ===========================================================================
-- Base64 (models Buffer.prototype.toString("base64") on the UTF-8 bytes)
-- ===========================================================================

def base64Alphabet : List Char :=
  "ABCDEFGHIJKLMNOPQRSTUVWXYZabcdefghijklmnopqrstuvwxyz0123456789+/".data

def b64At (n : Nat) : Char := base64Alphabet.getD n '='

def base64Groups : List Nat → List Char
  | [] => []
  | [b1] => [b64At (b1 / 4), b64At (b1 % 4 * 16), '=', '=']
  | [b1, b2] => [b64At (b1 / 4), b64At (b1 % 4 * 16 + b2 / 16), b64At (b2 % 16 * 4), '=']
  | b1 :: b2 :: b3 :: rest =>
    b64At (b1 / 4) :: b64At (b1 % 4 * 16 + b2 / 16) ::
    b64At (b2 % 16 * 4 + b3 / 64) :: b64At (b3 % 64) :: base64Groups rest

/-- Base64 of the UTF-8 bytes of a string. -/
def base64Encode (s : String) : String :=
  String.mk (base64Groups (s.toUTF8.toList.map UInt8.toNat))

-- ===========================================================================
-- tools.ts — types (ToolDefinition, ToolResult) and argument handling
-- ===========================================================================

/-- A JSON argument value of the three primitive types the tool schemas
declare.  A JS number is a float; the rationals represent every finite
float value and its order exactly, so `num` carries a `ℚ`. -/
inductive JVal where
  | str (s : String)
  | num (n : ℚ)
  | bool (b : Bool)
deriving Repr, DecidableEq

/-- The declared type of a schema property. -/
inductive JType where
  | string
  | number
  | boolean
deriving Repr, DecidableEq

def JVal.jtype : JVal → JType
  | .str _ => .string
  | .num _ => .number
  | .bool _ => .boolean

/-- JavaScript truthiness of an argument value (used by `if (append)` etc.). -/
def JVal.truthy : JVal → Bool
  | .str s => ¬ strIsEmpty s
  | .num n => n ≠ 0
  | .bool b => b

/-- The `args: Record<string, unknown>` map handed to a handler. -/
abbrev ToolArgs := List (String × JVal)

def getArg (args : ToolArgs) (k : String) : Option JVal :=
  match args with
  | [] => none
  | (k2, v) :: rest => if k2 = k then some v else getArg rest k

/-- Models `(args.k as boolean | undefined) ?? d` followed by a truthiness
test. -/
def getBoolD (args : ToolArgs) (k : String) (d : Bool) : Bool :=
  match getArg args k with
  | none => d
  | some v => v.truthy

/-- Models `(args.k as number | undefined) ?? d`.  A present non-number is
ruled out by schema validation before the handler runs; it defaults here. -/
def getNumD (args : ToolArgs) (k : String) (d : ℚ) : ℚ :=
  match getArg args k with
  | some (.num n) => n
  | _ => d

/-- Models `args.k as string` for a schema-required string property; the
default is unreachable under a validated argument map. -/
def getStrD (args : ToolArgs) (k : String) (d : String) : String :=
  match getArg args k with
  | some (.str s) => s
  | _ => d

/-- One `{ type: "text", text }` content block of a tool result. -/
structure ContentBlock where
  text : String
deriving Repr, DecidableEq

/-- The `ToolResult` interface: content blocks plus the optional `isError`
flag (absent on success). -/
structure ToolResult where
  content : List ContentBlock
  isError : Option Bool
deriving Repr, DecidableEq

/-- `ok(text)` of tools.ts. -/
def ok (text : String) : ToolResult := ⟨[⟨text⟩], none⟩

/-- `err(message)` of tools.ts. -/
def err (message : String) : ToolResult := ⟨[⟨"ERROR: " ++ message⟩], some true⟩

/-- A JavaScript `try { body } catch (e) { return err(wrap(e.message)) }`
around a handler body. -/
def runCatch (wrap : String → String) (body : Except String ToolResult) : ToolResult :=
  match body with
  | .ok r => r
  | .error e => err (wrap e)

/-- `safePath` of tools.ts: `path.resolve(process.cwd(), inputPath)`.  The
argument reaches it through the untyped cast `args.path as string`;
`path.resolve` throws a `TypeError` when handed a non-string, and that
happens outside every `try` block, so it is an `Except` failure here. -/
def safePath (fs : FS) (v : Option JVal) : Except String String :=
  match v with
  | some (.str s) => .ok (resolvePath fs.cwd s)
  | _ => .error "TypeError: The path argument must be of type string"

/-- The declared `inputSchema` of a tool: property types plus the required
names. -/
structure InputSchema where
  properties : List (String × JType)
  required : List String
deriving Repr, DecidableEq

def lookupProp : List (String × JType) → String → Option JType
  | [], _ => none
  | (k2, t) :: rest, k => if k2 = k then some t else lookupProp rest k

/-- An argument map satisfies a schema when every required property is
present, and every supplied value of a declared property has the declared
type (undeclared extras are permitted, as in JSON Schema without
`additionalProperties: false`). -/
def satisfiesSchema (sch : InputSchema) (args : ToolArgs) : Bool :=
  sch.required.all (fun r =>
    match getArg args r with
    | some _ => true
    | none => false) &&
  args.all (fun kv =>
    match lookupProp sch.properties kv.1 with
    | some t => kv.2.jtype = t
    | none => true)

/-- The `ToolDefinition` interface of tools.ts. -/
structure ToolDefinition where
  name : String
  description : String
  inputSchema : InputSchema
  handler : FS → ToolArgs → Except String ToolResult

-- ===========================================================================
-- tools.ts — read_file
-- ===========================================================================

/-- `fs.readFile(p, { encoding })`: utf8 returns the text, base64 returns the
base64 of the bytes, anything else is the argument-validation throw. -/
def nodeReadFileEnc (fs : FS) (p : String) (encoding : String) : Except String String :=
  if encoding = "utf8" then nodeReadFile fs p
  else if encoding = "base64" then (nodeReadFile fs p).map base64Encode
  else .error ("TypeError: Unknown encoding: " ++ encoding)

/-- The `(args.encoding as BufferEncoding | undefined) ?? "utf8"` extraction
of the `read_file` handler (a present non-string is an unknown encoding). -/
def readEncoding (args : ToolArgs) : String :=
  match getArg args "encoding" with
  | some (.str s) => s
  | some _ => "invalid"
  | none => "utf8"

def readFileTool : ToolDefinition where
  name := "read_file"
  description :=
    "Read the complete text content of a file at the given path. " ++
    "Returns the raw text. Fails if the path does not exist or is a directory."
  inputSchema :=
    { properties := [("path", .string), ("encoding", .string)]
      required := ["path"] }
  handler := fun fs args => do
    let filePath ← safePath fs (getArg args "path")
    let encoding := readEncoding args
    pure <| runCatch (fun m => "Could not read file: " ++ m) (do
      let stats ← nodeStat fs filePath
      if stats.isDirectory then
        pure (err (quoted filePath ++ " is a directory. Use list_directory instead."))
      else do
        let content ← nodeReadFileEnc fs filePath encoding
        pure (ok ("File: " ++ filePath ++ "\nSize: " ++ toFixed2KB stats.size ++
          " KB\nEncoding: " ++ encoding ++ "\n\n--- Content ---\n" ++ content)))

-- ===========================================================================
-- tools.ts — write_file
-- ===========================================================================

def writeFileTool : ToolDefinition where
  name := "write_file"
  description :=
    "Write (or overwrite) a file at the given path with the provided text content. " ++
    "Creates parent directories if they do not exist. " ++
    "Use with caution — existing content is replaced."
  inputSchema :=
    { properties := [("path", .string), ("content", .string), ("append", .boolean)]
      required := ["path", "content"] }
  handler := fun fs args => do
    let filePath ← safePath fs (getArg args "path")
    let content := getStrD args "content" ""
    let append := getBoolD args "append" false
    pure <| runCatch (fun m => "Could not write file: " ++ m) (do
      nodeMkdir fs (dirname filePath)
      if append then do
        nodeAppendFile fs filePath
        pure (ok ("Appended " ++ natStr (strLen content) ++ " characters to " ++
          quoted filePath ++ "."))
      else do
        nodeWriteFile fs filePath
        pure (ok ("Wrote " ++ natStr (strLen content) ++ " characters to " ++
          quoted filePath ++ ".")))

-- ===========================================================================
-- tools.ts — list_directory
-- ===========================================================================

mutual

/-- `collectEntries` of tools.ts, recursing on the subtree that `readdir`
walks; `currentDir` is the absolute path addressing `node`.  A `readdir`
failure (e.g. an unreadable directory) propagates to the caller, exactly as
the un-caught rejection does in the source. -/
def collectEntries (fs : FS) (baseDir : String) (node : FSNode) (currentDir : String)
    (recursive : Bool) (lines : List String) : Except String (List String) :=
  match node with
  | .file _ _ => .error (enotdirMsg "scandir" currentDir)
  | .dir _ children =>
    if fs.readable currentDir then
      collectChildren fs baseDir children currentDir recursive lines
    else .error (eaccesMsg "scandir" currentDir)

/-- The `for (const entry of entries)` loop body of `collectEntries`. -/
def collectChildren (fs : FS) (baseDir : String) (entries : List (String × FSNode))
    (currentDir : String) (recursive : Bool) (lines : List String) :
    Except String (List String) :=
  match entries with
  | [] => .ok lines
  | (name, child) :: rest =>
    let fullPath := joinPath currentDir name
    let rel := relativeTo baseDir fullPath
    match child with
    | .dir _ _ => do
      let lines := lines ++ ["[DIR]  " ++ rel ++ "/"]
      let lines ←
        if recursive then collectEntries fs baseDir child fullPath recursive lines
        else pure lines
      collectChildren fs baseDir rest currentDir recursive lines
    | .file st _ =>
      let line := "[FILE] " ++ padEnd 50 rel ++ " " ++ padStart 8 (toFixed1KB st.size) ++
        " KB  " ++ strTake (replaceTspace st.mtime) 19
      collectChildren fs baseDir rest currentDir recursive (lines ++ [line])

end

def listDirectoryTool : ToolDefinition where
  name := "list_directory"
  description :=
    "List the contents of a directory. Returns each entry with its type, size, " ++
    "and last-modified date. Use recursive=true to list all nested files."
  inputSchema :=
    { properties := [("path", .string), ("recursive", .boolean)]
      required := ["path"] }
  handler := fun fs args => do
    let dirPath ← safePath fs (getArg args "path")
    let recursive := getBoolD args "recursive" false
    pure <| runCatch (fun m => "Could not list directory: " ++ m) (do
      let stats ← nodeStat fs dirPath
      if ¬ stats.isDirectory then
        pure (err (quoted dirPath ++ " is not a directory. Use read_file to read files."))
      else do
        match fs.lookup dirPath with
        | none => .error (enoentMsg "scandir" dirPath)
        | some node => do
          let lines ← collectEntries fs dirPath node dirPath recursive
            ["Directory: " ++ dirPath ++ "\n"]
          pure (ok (joinSep "\n"
            (lines ++ ["\nTotal entries: " ++ natStr (lines.length - 1)]))))

-- ===========================================================================
-- tools.ts — search_files (with a model of the JS RegExp it builds)
-- ===========================================================================

/-- The regex metacharacters the source escapes:
`pattern.replace(/[.+^$\x7b\x7d()|[\]\\]/g, "\\$&")`. -/
def regexSpecials : List Char :=
  ['.', '+', '^', '$', Char.ofNat 123, Char.ofNat 125, '(', ')', '|', '[', ']', '\\']

/-- The first `.replace` call: escape every metacharacter except `*` and `?`. -/
def escapeRegexChars (s : String) : String :=
  String.mk (s.data.flatMap (fun c => if regexSpecials.contains c then ['\\', c] else [c]))

/-- The second `.replace` call: `\*` does not occur after escaping, so every
remaining `*` becomes `.*`. -/
def replaceStars (s : String) : String :=
  String.mk (s.data.flatMap (fun c => if c = '*' then ['.', '*'] else [c]))

/-- One atom of the compiled regex. -/
inductive RItem where
  | lit (c : Char)
  | anyChar
deriving Repr, DecidableEq

/-- An atom with its quantifier.  A lazy quantifier accepts the same
language as the greedy one, so `test` needs no laziness distinction. -/
inductive RTok where
  | one (i : RItem)
  | star (i : RItem)
  | opt (i : RItem)
deriving Repr, DecidableEq

/-- Models `new RegExp(regexStr, "i")` compilation on the escaped sources the
tool builds: atoms are `\c` and `.` and plain characters; `*` and `?`
quantify the preceding atom and are a `SyntaxError` with nothing to
repeat, exactly the case `new RegExp` throws on. -/
def compileRegexAux : List RTok → List Char → Except String (List RTok)
  | acc, [] => .ok acc.reverse
  | acc, '\\' :: c :: rest => compileRegexAux (.one (.lit c) :: acc) rest
  | _, ['\\'] => .error "SyntaxError: Invalid regular expression: \\ at end of pattern"
  | acc, '*' :: rest =>
    match acc with
    | .one i :: acc2 => compileRegexAux (.star i :: acc2) rest
    | _ => .error "SyntaxError: Invalid regular expression: nothing to repeat"
  | acc, '?' :: rest =>
    match acc with
    | .one i :: acc2 => compileRegexAux (.opt i :: acc2) rest
    | .star i :: acc2 => compileRegexAux (.star i :: acc2) rest
    | .opt i :: acc2 => compileRegexAux (.opt i :: acc2) rest
    | [] => .error "SyntaxError: Invalid regular expression: nothing to repeat"
  | acc, '.' :: rest => compileRegexAux (.one .anyChar :: acc) rest
  | acc, c :: rest => compileRegexAux (.one (.lit c) :: acc) rest

def compileRegex (s : String) : Except String (List RTok) :=
  compileRegexAux [] s.data

/-- Whether an atom matches one character, with the `i` flag and the
newline-excluding `.`. -/
def itemMatches : RItem → Char → Bool
  | .lit l, c => l.toLower = c.toLower
  | .anyChar, c => c ≠ '\n' && c ≠ '\r'

/-- Anchored match of a token list against a prefix of the character list
(succeeding as soon as the tokens are exhausted, as `test` needs). -/
def matchToks : List RTok → List Char → Bool
  | [], _ => true
  | .one i :: ts, cs =>
    match cs with
    | [] => false
    | c :: rest => itemMatches i c && matchToks ts rest
  | .opt i :: ts, cs =>
    matchToks ts cs ||
      match cs with
      | [] => false
      | c :: rest => itemMatches i c && matchToks ts rest
  | .star i :: ts, cs =>
    matchToks ts cs ||
      match cs with
      | [] => false
      | c :: rest => itemMatches i c && matchToks (.star i :: ts) rest
termination_by ts cs => (ts.length, cs.length)

/-- Unanchored search from every start position. -/
def testFrom (toks : List RTok) : List Char → Bool
  | [] => matchToks toks []
  | c :: rest => matchToks toks (c :: rest) || testFrom toks rest

/-- Models `regex.test(s)`. -/
def regexTest (toks : List RTok) (s : String) : Bool :=
  testFrom toks s.data

/-- The directory names `walkAndMatch` skips. -/
def prunedDirNames : List String := ["node_modules", ".git", "dist", ".cache"]

mutual

/-- `walkAndMatch` of tools.ts on the subtree `readdir` would deliver for
`dir`.  A file node or an unreadable directory is the `readdir` rejection
swallowed by the function's own `try/catch`; `maxResults` is a `ℚ` because
the schema admits any JS number, fractional values included. -/
def walkAndMatch (fs : FS) (node : FSNode) (dir : String) (rx : List RTok)
    (results : List String) (maxResults : ℚ) : List String :=
  if (results.length : ℚ) ≥ maxResults then results
  else
    match node with
    | .file _ _ => results
    | .dir _ children =>
      if fs.readable dir then walkChildren fs children dir rx results maxResults
      else results

/-- The `for (const entry of entries)` loop of `walkAndMatch`. -/
def walkChildren (fs : FS) (entries : List (String × FSNode)) (dir : String)
    (rx : List RTok) (results : List String) (maxResults : ℚ) : List String :=
  match entries with
  | [] => results
  | (name, child) :: rest =>
    if (results.length : ℚ) ≥ maxResults then results
    else
      let fullPath := joinPath dir name
      match child with
      | .dir _ _ =>
        if prunedDirNames.contains name then
          walkChildren fs rest dir rx results maxResults
        else
          walkChildren fs rest dir rx (walkAndMatch fs child fullPath rx results maxResults)
            maxResults
      | .file _ _ =>
        if regexTest rx name then
          walkChildren fs rest dir rx (results ++ [fullPath]) maxResults
        else
          walkChildren fs rest dir rx results maxResults

end

/-- The top-level `walkAndMatch(searchDir, …)` call: a missing root is the
`readdir` rejection caught inside `walkAndMatch` itself. -/
def walkAndMatchPath (fs : FS) (dir : String) (rx : List RTok)
    (results : List String) (maxResults : ℚ) : List String :=
  match fs.lookup dir with
  | none => results
  | some node => walkAndMatch fs node dir rx results maxResults

def searchFilesTool : ToolDefinition where
  name := "search_files"
  description :=
    "Search for files whose names match a pattern (case-insensitive substring or glob-style " ++
    "wildcard *). Walks a directory tree and returns all matching file paths."
  inputSchema :=
    { properties := [("directory", .string), ("pattern", .string), ("maxResults", .number)]
      required := ["directory", "pattern"] }
  handler := fun fs args => do
    let searchDir ← safePath fs (getArg args "directory")
    let pattern := getStrD args "pattern" ""
    let maxResults := getNumD args "maxResults" 50
    pure <| runCatch (fun m => "Search failed: " ++ m) (do
      let regexStr := replaceStars (escapeRegexChars pattern)
      let rx ← compileRegex regexStr
      let results := walkAndMatchPath fs searchDir rx [] maxResults
      if results.isEmpty then
        pure (ok ("No files matching " ++ quoted pattern ++ " found in " ++
          quoted searchDir ++ "."))
      else
        pure (ok ("Found " ++ natStr results.length ++ " match(es) for " ++ quoted pattern ++
          " in " ++ quoted searchDir ++ ":\n" ++
          joinSep "\n" (results.map (fun r => "  " ++ r)))))

-- ===========================================================================
-- tools.ts — get_file_info
-- ===========================================================================

def mimeMap : List (String × String) :=
  [(".ts", "text/typescript"), (".tsx", "text/typescript"),
   (".js", "text/javascript"), (".mjs", "text/javascript"),
   (".json", "application/json"), (".md", "text/markdown"),
   (".txt", "text/plain"), (".html", "text/html"), (".css", "text/css"),
   (".png", "image/png"), (".jpg", "image/jpeg"), (".jpeg", "image/jpeg"),
   (".gif", "image/gif"), (".svg", "image/svg+xml"), (".pdf", "application/pdf"),
   (".zip", "application/zip"), (".py", "text/x-python"), (".rs", "text/x-rust"),
   (".go", "text/x-go"), (".sh", "text/x-shellscript"), (".yaml", "text/yaml"),
   (".yml", "text/yaml"), (".toml", "text/toml"), (".csv", "text/csv")]

def lookupAssoc : List (String × String) → String → Option String
  | [], _ => none
  | (k2, v) :: rest, k => if k2 = k then some v else lookupAssoc rest k

/-- `guessMime` of tools.ts. -/
def guessMime (filePath : String) : String :=
  (lookupAssoc mimeMap (lowerStr (extname filePath))).getD "application/octet-stream"

def getFileInfoTool : ToolDefinition where
  name := "get_file_info"
  description :=
    "Get detailed metadata about a file or directory: size, type, permissions, " ++
    "creation time, last modified time, and MIME type guess."
  inputSchema :=
    { properties := [("path", .string)]
      required := ["path"] }
  handler := fun fs args => do
    let filePath ← safePath fs (getArg args "path")
    pure <| runCatch (fun m => "Could not stat path: " ++ m) (do
      let stats ← nodeStat fs filePath
      let type := if stats.isDirectory then "directory"
        else if stats.isSymbolicLink then "symlink" else "file"
      let mime := guessMime filePath
      let sizeBytes := stats.size
      let info := joinSep "\n"
        ["Path:           " ++ filePath,
         "Type:           " ++ type,
         "MIME (guessed): " ++ mime,
         "Size:           " ++ natStr sizeBytes ++ " bytes  (" ++ toFixed2KB sizeBytes ++ " KB)",
         "Created:        " ++ stats.birthtime,
         "Modified:       " ++ stats.mtime,
         "Accessed:       " ++ stats.atime,
         "Permissions:    " ++ octalStr (stats.mode % 512) ++ " (octal)"]
      pure (ok info))

-- ===========================================================================
-- tools.ts — delete_file and the ALL_TOOLS catalog
-- ===========================================================================

def deleteFileTool : ToolDefinition where
  name := "delete_file"
  description :=
    "Delete a file at the given path. This operation is IRREVERSIBLE. " ++
    "Does not delete directories."
  inputSchema :=
    { properties := [("path", .string)]
      required := ["path"] }
  handler := fun fs args => do
    let filePath ← safePath fs (getArg args "path")
    pure <| runCatch (fun m => "Could not delete file: " ++ m) (do
      let stats ← nodeStat fs filePath
      if stats.isDirectory then
        pure (err (quoted filePath ++ " is a directory. This tool only deletes files."))
      else do
        nodeUnlink fs filePath
        pure (ok ("Deleted file: " ++ quoted filePath ++ ".")))

/-- `ALL_TOOLS` of tools.ts, in source order. -/
def ALL_TOOLS : List ToolDefinition :=
  [readFileTool, writeFileTool, listDirectoryTool, searchFilesTool,
   getFileInfoTool, deleteFileTool]

-- ===========================================================================
-- resources.ts
-- ===========================================================================

/-- The `ResourceInfo` interface of resources.ts. -/
structure ResourceInfo where
  uri : String
  name : String
  description : String
  mimeType : String
deriving Repr, DecidableEq

/-- The `ResourceContent` interface: `text` and `blob` are both optional. -/
structure ResourceContent where
  uri : String
  mimeType : String
  text : Option String
  blob : Option String
deriving Repr, DecidableEq

/-- The candidate well-known files of `buildStaticResources`:
file name, mime type, description. -/
def staticCandidates : List (String × String × String) :=
  [("README.md", "text/markdown", "Project README"),
   ("package.json", "application/json", "Node.js package manifest"),
   ("tsconfig.json", "application/json", "TypeScript configuration"),
   (".env", "text/plain", "Environment variables")]

/-- The unconditional final entry of `buildStaticResources`. -/
def workingDirResource (cwd : String) : ResourceInfo :=
  { uri := "file://" ++ cwd ++ "/"
    name := "Working Directory"
    description := "Current working directory: " ++ cwd
    mimeType := "text/plain" }

/-- `buildStaticResources` of resources.ts: each candidate that passes the
`fs.access` probe, then always the working-directory entry. -/
def buildStaticResources (fs : FS) : List ResourceInfo :=
  (staticCandidates.filterMap (fun cand =>
    let fullPath := joinPath fs.cwd cand.1
    if nodeAccess fs fullPath then
      some { uri := "file://" ++ fullPath
             name := cand.1
             description := cand.2.2 ++ " — " ++ fullPath
             mimeType := cand.2.1 }
    else none)) ++ [workingDirResource fs.cwd]

/-- `buildDirectoryListing` of resources.ts; the `readdir` rejection
propagates to the caller. -/
def buildDirectoryListing (fs : FS) (dirPath : String) : Except String String := do
  let entries ← nodeReaddir fs dirPath
  let lines := ("Directory listing: " ++ dirPath ++ "\n") ::
    entries.map (fun e =>
      (match e.2 with
       | .dir _ _ => "[DIR] "
       | .file _ _ => "[FILE]") ++ "  " ++ e.1)
  pure (joinSep "\n" lines)

/-- The extension set `readResource` treats as text. -/
def textMimes : List String :=
  [".ts", ".tsx", ".js", ".mjs", ".json", ".md", ".txt",
   ".html", ".css", ".yaml", ".yml", ".toml", ".csv",
   ".sh", ".py", ".rs", ".go", ".xml", ".env"]

/-- `readResource` of resources.ts.  The directory-style branch runs before
the `try` block, so its `readdir` failure propagates raw; the `try` body
re-throws its failures wrapped in the `Cannot read resource` message. -/
def readResource (fs : FS) (uri : String) : Except String ResourceContent :=
  if ¬ strStartsWith uri "file://" then
    .error "Unsupported URI scheme. Only \x27file://\x27 URIs are supported."
  else
    let rawPath := strDrop uri 7
    if strEndsWith rawPath "/" then do
      let dirPath := if strIsEmpty (strDropRight rawPath 1) then "/" else strDropRight rawPath 1
      let text ← buildDirectoryListing fs dirPath
      pure { uri := uri, mimeType := "text/plain", text := some text, blob := none }
    else
      match (do
        let stats ← nodeStat fs rawPath
        if stats.isDirectory then do
          let text ← buildDirectoryListing fs rawPath
          pure { uri := uri, mimeType := "text/plain", text := some text, blob := none }
        else
          let ext := lowerStr (extname rawPath)
          if textMimes.contains ext ∨ stats.size < 512 * 1024 then do
            let text ← nodeReadFile fs rawPath
            pure { uri := uri, mimeType := "text/plain", text := some text, blob := none }
          else do
            let content ← nodeReadFile fs rawPath
            pure { uri := uri, mimeType := "application/octet-stream", text := none,
                   blob := some (base64Encode content) } : Except String ResourceContent) with
      | .ok c => .ok c
      | .error e => .error ("Cannot read resource " ++ quoted uri ++ ": " ++ e)

-- ===========================================================================
-- prompts.ts
-- ===========================================================================

/-- The `PromptArgument` interface. -/
structure PromptArgument where
  name : String
  description : String
  required : Bool
deriving Repr, DecidableEq

/-- The role tags of a `PromptMessage`. -/
inductive PromptRole where
  | user
  | assistant
deriving Repr, DecidableEq

/-- The `PromptMessage` interface (content is always a text block). -/
structure PromptMessage where
  role : PromptRole
  text : String
deriving Repr, DecidableEq

/-- The string-valued argument map a prompt `generate` receives. -/
abbrev PromptArgs := List (String × String)

def getPromptArg (args : PromptArgs) (k : String) : Option String :=
  match args with
  | [] => none
  | (k2, v) :: rest => if k2 = k then some v else getPromptArg rest k

/-- The `PromptDefinition` interface of prompts.ts. -/
structure PromptDefinition where
  name : String
  description : String
  arguments : List PromptArgument
  generate : FS → PromptArgs → Except String (List PromptMessage)

/-- `reviewFilePrompt` of prompts.ts. -/
def reviewFilePrompt : PromptDefinition where
  name := "review-file"
  description :=
    "Perform a detailed code review of a file. The model will analyse code quality, " ++
    "structure, potential bugs, and suggest improvements."
  arguments :=
    [⟨"path", "Path to the file you want reviewed.", true⟩,
     ⟨"focus", "Optional focus: \x27security\x27, \x27performance\x27, \x27readability\x27, or \x27all\x27 (default).", false⟩]
  generate := fun fs args => do
    let filePath := resolvePath fs.cwd ((getPromptArg args "path").getD "")
    let focus := (getPromptArg args "focus").getD "all"
    let fileContent := match nodeReadFile fs filePath with
      | .ok c => c
      | .error _ => "(Could not read file — it may not exist or is binary)"
    let focusInstruction :=
      if focus = "all" then
        "Cover: code quality, correctness, security, performance, and readability."
      else
        "Focus especially on **" ++ focus ++ "** concerns, but note any critical issues in other areas too."
    pure [⟨.user,
      "Please perform a thorough code review of the following file.\n\n" ++
      "**File:** `" ++ filePath ++ "`\n" ++
      "**Review focus:** " ++ focus ++ "\n\n" ++
      focusInstruction ++ "\n\n" ++
      "--- File Content ---\n```\n" ++ fileContent ++ "\n```"⟩]

mutual

/-- `buildTree` of prompts.ts on the subtree `readdir` delivers for `dir`;
depth-limited, skipping the ignored directory names.  `readdir` failures
propagate to the caller. -/
def buildTree (fs : FS) (base : String) (node : FSNode) (dir : String)
    (depth maxDepth : Nat) : Except String String :=
  if depth > maxDepth then .ok ""
  else
    match node with
    | .file _ _ => .error (enotdirMsg "scandir" dir)
    | .dir _ children =>
      if fs.readable dir then do
        let lines ← buildTreeChildren fs base children dir depth maxDepth
        pure (joinSep "\n" lines)
      else .error (eaccesMsg "scandir" dir)

/-- The entry loop of `buildTree`. -/
def buildTreeChildren (fs : FS) (base : String) (entries : List (String × FSNode))
    (dir : String) (depth maxDepth : Nat) : Except String (List String) :=
  match entries with
  | [] => .ok []
  | (name, child) :: rest =>
    if ["node_modules", ".git", "dist", ".cache", "__pycache__"].contains name then
      buildTreeChildren fs base rest dir depth maxDepth
    else
      let indent := String.mk (List.replicate depth ' ' ++ List.replicate depth ' ')
      match child with
      | .dir _ _ => do
        let sub ← buildTree fs base child (joinPath dir name) (depth + 1) maxDepth
        let restLines ← buildTreeChildren fs base rest dir depth maxDepth
        pure ((indent ++ name ++ "/") :: (if strIsEmpty sub then restLines else sub :: restLines))
      | .file _ _ => do
        let restLines ← buildTreeChildren fs base rest dir depth maxDepth
        pure ((indent ++ name) :: restLines)

end

/-- The root `buildTree(dirPath, dirPath, 0, 3)` call, whose missing-root
`readdir` failure is the thrown rejection. -/
def buildTreePath (fs : FS) (dirPath : String) : Except String String :=
  match fs.lookup dirPath with
  | none => .error (enoentMsg "scandir" dirPath)
  | some node => buildTree fs dirPath node dirPath 0 3

/-- `summarizeDirectoryPrompt` of prompts.ts. -/
def summarizeDirectoryPrompt : PromptDefinition where
  name := "summarize-directory"
  description :=
    "Generate a high-level summary of a project directory — what it does, " ++
    "how it\x27s structured, and what each major file/folder is responsible for."
  arguments := [⟨"path", "Path to the directory to summarize.", true⟩]
  generate := fun fs args => do
    let dirPath := resolvePath fs.cwd ((getPromptArg args "path").getD ".")
    let tree := match buildTreePath fs dirPath with
      | .ok t => t
      | .error _ => "(Could not read directory)"
    pure [⟨.user,
      "Please analyse the following project directory structure and provide:\n\n" ++
      "1. **Project purpose** — What does this project/folder do?\n" ++
      "2. **Architecture overview** — How is the code organised?\n" ++
      "3. **Key files/folders** — What does each important entry do?\n" ++
      "4. **Technology stack** — Languages, frameworks, tools used.\n" ++
      "5. **Entry points** — Where does execution start?\n\n" ++
      "**Directory:** `" ++ dirPath ++ "`\n\n" ++
      "--- Directory Tree ---\n" ++ tree⟩]

mutual

/-- `findFirst` of prompts.ts on the subtree for `dir`: the first file of
the given name within the depth bound, depth-first, skipping the ignored
directories; `readdir` failures propagate. -/
def findFirst (fs : FS) (node : FSNode) (dir : String) (filename : String)
    (depth maxDepth : Nat) : Except String (Option String) :=
  if depth > maxDepth then .ok none
  else
    match node with
    | .file _ _ => .error (enotdirMsg "scandir" dir)
    | .dir _ children =>
      if fs.readable dir then
        findFirstChildren fs children dir filename depth maxDepth
      else .error (eaccesMsg "scandir" dir)

/-- The entry loop of `findFirst`. -/
def findFirstChildren (fs : FS) (entries : List (String × FSNode)) (dir : String)
    (filename : String) (depth maxDepth : Nat) : Except String (Option String) :=
  match entries with
  | [] => .ok none
  | (name, child) :: rest =>
    let fullPath := joinPath dir name
    match child with
    | .file _ _ =>
      if name = filename then .ok (some fullPath)
      else findFirstChildren fs rest dir filename depth maxDepth
    | .dir _ _ =>
      if ["node_modules", ".git", "dist"].contains name then
        findFirstChildren fs rest dir filename depth maxDepth
      else do
        let found ← findFirst fs child fullPath filename (depth + 1) maxDepth
        match found with
        | some p => pure (some p)
        | none => findFirstChildren fs rest dir filename depth maxDepth

end

/-- The root `findFirst(searchDir, filename, 0, 5)` call. -/
def findFirstPath (fs : FS) (dir filename : String) : Except String (Option String) :=
  match fs.lookup dir with
  | none => .error (enoentMsg "scandir" dir)
  | some node => findFirst fs node dir filename 0 5

/-- `findAndExplainPrompt` of prompts.ts.  The `try` block assigns
`foundPath` before reading the file, so a read failure leaves `foundPath`
set while `fileContent` keeps its default. -/
def findAndExplainPrompt : PromptDefinition where
  name := "find-and-explain"
  description :=
    "Find a file by name and ask the model to explain what it does in plain English. " ++
    "Great for onboarding to an unfamiliar codebase."
  arguments :=
    [⟨"filename", "The file name to look for (e.g. \x27server.ts\x27).", true⟩,
     ⟨"directory", "Root directory to search. Defaults to current directory.", false⟩]
  generate := fun fs args => do
    let filename := (getPromptArg args "filename").getD ""
    let searchDir := resolvePath fs.cwd ((getPromptArg args "directory").getD ".")
    let state : Option String × String :=
      match findFirstPath fs searchDir filename with
      | .error _ => (none, "(File not found)")
      | .ok none => (none, "(File not found)")
      | .ok (some p) =>
        match nodeReadFile fs p with
        | .ok c => (some p, c)
        | .error _ => (some p, "(File not found)")
    pure [⟨.user,
      "I found the file `" ++ (state.1.getD filename) ++ "`. " ++
      "Please explain what it does in plain English:\n\n" ++
      "- What is its purpose?\n" ++
      "- What are the most important parts?\n" ++
      "- Are there any non-obvious patterns or tricks?\n\n" ++
      "--- File Content ---\n```\n" ++ state.2 ++ "\n```"⟩]

/-- `ALL_PROMPTS` of prompts.ts, in source order. -/
def ALL_PROMPTS : List PromptDefinition :=
  [reviewFilePrompt, summarizeDirectoryPrompt, findAndExplainPrompt]

-- ===========================================================================
-- Capability registry (resource resolution and tool registration)
-- ===========================================================================

/-- Modelled from the spec: a `ResourceTemplate` pattern of the single-variable
form `prefix{var}suffix` used by index.ts (`file://{path}`); the registration
and resolution logic itself lives in the external protocol SDK, not under
src/, so it is modelled from §4.2 of the spec. -/
structure ResourceTemplateSpec where
  name : String
  patternPrefix : String
  patternSuffix : String
  description : String
  mimeType : String
deriving Repr, DecidableEq

/-- Modelled from the spec: whether a concrete URI matches a template by
pattern substitution (some variable value makes the pattern equal the URI). -/
def templateMatches (t : ResourceTemplateSpec) (uri : String) : Bool :=
  strStartsWith uri t.patternPrefix &&
    strEndsWith (strDrop uri (strLen t.patternPrefix)) t.patternSuffix

/-- One registry entry: a concrete static resource or a template. -/
inductive RegisteredResource where
  | staticR (info : ResourceInfo)
  | templateR (t : ResourceTemplateSpec)
deriving Repr, DecidableEq

def RegisteredResource.isStaticFor (uri : String) : RegisteredResource → Bool
  | .staticR info => info.uri = uri
  | .templateR _ => false

def RegisteredResource.isTemplateFor (uri : String) : RegisteredResource → Bool
  | .staticR _ => false
  | .templateR t => templateMatches t uri

/-- Modelled from the spec: `resolveResource(uri)` of the Capability Registry
(§4.2) — static exact-match first; else the first-registered template whose
pattern matches. -/
def resolveResource (regs : List RegisteredResource) (uri : String) :
    Option RegisteredResource :=
  match regs.find? (RegisteredResource.isStaticFor uri) with
  | some r => some r
  | none => regs.find? (RegisteredResource.isTemplateFor uri)

/-- The `file://{path}` template registered by `main` in index.ts. -/
def fileTemplate : ResourceTemplateSpec :=
  { name := "file"
    patternPrefix := "file://"
    patternSuffix := ""
    description := "Read any file by its absolute path via a file:// URI."
    mimeType := "text/plain" }

/-- The registration sequence `main` performs: every static resource from
`buildStaticResources`, in order, then the `file://{path}` template. -/
def serverRegistrations (fs : FS) : List RegisteredResource :=
  (buildStaticResources fs).map .staticR ++ [.templateR fileTemplate]

/-- Modelled from the spec: the tool table of the Capability Registry; the
`registerTool` implementation lives in the external protocol SDK, not under
src/, so it is modelled from §4.2 — `registerTool(spec)` fails with
`DuplicateNameError` if a tool of that name already exists. -/
structure ToolRegistry where
  tools : List (String × ToolDefinition)

def ToolRegistry.names (reg : ToolRegistry) : List String :=
  reg.tools.map Prod.fst

/-- Modelled from the spec: `registerTool`. -/
def registerTool (reg : ToolRegistry) (name : String) (t : ToolDefinition) :
    Except String ToolRegistry :=
  if reg.names.contains name then
    .error ("DuplicateNameError: tool " ++ quoted name ++ " is already registered")
  else
    .ok ⟨reg.tools ++ [(name, t)]⟩

-- ===========================================================================
-- Message framing layer (newline-delimited JSON-RPC records)
-- ===========================================================================

/-- The two brace characters, named so they can appear in code positions. -/
def lbrace : Char := Char.ofNat 123

def rbrace : Char := Char.ofNat 125

mutual

/-- Modelled from the spec: an arbitrary JSON payload value carried by a
Response `result`; the framing layer itself lives in the external protocol
SDK, not under src/, so it is modelled from §4.1/§6 of the spec
(newline-delimited JSON records). -/
inductive JsonValue where
  | null
  | bool (b : Bool)
  | num (n : Int)
  | str (s : String)
  | arr (xs : JsonList)
  | obj (fields : JsonFields)

/-- A JSON array body. -/
inductive JsonList where
  | nil
  | cons (v : JsonValue) (tl : JsonList)

/-- A JSON object body. -/
inductive JsonFields where
  | nil
  | cons (k : String) (v : JsonValue) (tl : JsonFields)

end

/-- Modelled from the spec: a request/response id — "IDs are opaque (string
or integer)". -/
inductive ReqId where
  | str (s : String)
  | num (n : Int)
deriving Repr, DecidableEq

/-- Modelled from the spec: the payload of a Response — `result` or `error`
(numeric class code plus free-text message), never both. -/
inductive RespPayload where
  | result (v : JsonValue)
  | error (code : Int) (message : String)

/-- Modelled from the spec: a Response message `{id, result | error}`. -/
structure ResponseMsg where
  id : ReqId
  payload : RespPayload

/-- JSON string escaping for the characters the encoder must protect (the
quote, the backslash, and the line terminators the newline framing cannot
contain). -/
def escapeChar (c : Char) : List Char :=
  if c = '"' then ['\\', '"']
  else if c = '\\' then ['\\', '\\']
  else if c = '\n' then ['\\', 'n']
  else if c = '\r' then ['\\', 'r']
  else if c = '\t' then ['\\', 't']
  else [c]

/-- The body of an encoded JSON string, including the closing quote. -/
def escBody : List Char → List Char
  | [] => ['"']
  | c :: rest => escapeChar c ++ escBody rest

/-- An encoded JSON string literal. -/
def encStr (s : String) : List Char := '"' :: escBody s.data

/-- An encoded JSON integer. -/
def encInt (n : Int) : List Char :=
  if n < 0 then '-' :: natDigits n.natAbs else natDigits n.toNat

mutual

/-- The exact byte encoding of a JSON value (no insignificant whitespace). -/
def encV : JsonValue → List Char
  | .null => "null".data
  | .bool true => "true".data
  | .bool false => "false".data
  | .num n => encInt n
  | .str s => encStr s
  | .arr xs => '[' :: encList xs
  | .obj fields => lbrace :: encFields fields

/-- Encoded array elements after the opening bracket, including the
closing bracket. -/
def encList : JsonList → List Char
  | .nil => [']']
  | .cons v .nil => encV v ++ [']']
  | .cons v (.cons v2 tl) => encV v ++ ',' :: encList (.cons v2 tl)

/-- Encoded object members after the opening brace, including the closing
brace. -/
def encFields : JsonFields → List Char
  | .nil => [rbrace]
  | .cons k v .nil => encStr k ++ ':' :: encV v ++ [rbrace]
  | .cons k v (.cons k2 v2 tl) =>
    encStr k ++ ':' :: encV v ++ ',' :: encFields (.cons k2 v2 tl)

end

def encId : ReqId → List Char
  | .str s => encStr s
  | .num n => encInt n

def frameHead : List Char := lbrace :: "\"jsonrpc\":\"2.0\",\"id\":".data

def frameResultSep : List Char := ",\"result\":".data

def frameErrorSep : List Char := ",\"error\":".data ++ lbrace :: "\"code\":".data

def frameMessageSep : List Char := ",\"message\":".data

/-- Modelled from the spec: the exact byte encoding the framing layer writes
for one Response message. -/
def encodeResponse (m : ResponseMsg) : List Char :=
  frameHead ++ encId m.id ++
    (match m.payload with
     | .result v => frameResultSep ++ encV v ++ [rbrace]
     | .error code msg =>
       frameErrorSep ++ encInt code ++ frameMessageSep ++ encStr msg ++ [rbrace, rbrace])

/-- Modelled from the spec: one newline-delimited frame on the wire. -/
def encodeFrame (m : ResponseMsg) : String :=
  String.mk (encodeResponse m ++ ['\n'])

-- Decoding ------------------------------------------------------------------

/-- Consume an exact literal. -/
def expectLit : List Char → List Char → Option (List Char)
  | [], cs => some cs
  | _ :: _, [] => none
  | p :: ps, c :: cs => if c = p then expectLit ps cs else none

/-- Invert `escapeChar` on the character following a backslash. -/
def unescapeChar (c : Char) : Option Char :=
  if c = '"' then some '"'
  else if c = '\\' then some '\\'
  else if c = 'n' then some '\n'
  else if c = 'r' then some '\r'
  else if c = 't' then some '\t'
  else none

/-- Parse the body of a JSON string up to its closing quote. -/
def parseStringBody : List Char → Option (List Char × List Char)
  | [] => none
  | c :: r =>
    if c = '"' then some ([], r)
    else if c = '\\' then
      match r with
      | [] => none
      | e :: r2 =>
        (unescapeChar e).bind (fun u =>
          (parseStringBody r2).map (fun p => (u :: p.1, p.2)))
    else (parseStringBody r).map (fun p => (c :: p.1, p.2))

/-- Numeric value of a digit string. -/
def digitsToNat (ds : List Char) : Nat :=
  ds.foldl (fun a c => a * 10 + (c.toNat - 48)) 0

/-- Parse a non-empty run of decimal digits. -/
def parseNatChars (cs : List Char) : Option (Nat × List Char) :=
  let ds := cs.takeWhile Char.isDigit
  if ds.isEmpty then none
  else some (digitsToNat ds, cs.dropWhile Char.isDigit)

/-- Parse an optionally negated decimal integer. -/
def parseIntChars (cs : List Char) : Option (Int × List Char) :=
  match cs with
  | '-' :: r => (parseNatChars r).map (fun p => (-(p.1 : Int), p.2))
  | _ => (parseNatChars cs).map (fun p => ((p.1 : Int), p.2))

mutual

/-- Fuelled parser for one JSON value, the inverse direction of `encV`. -/
def parseVal : Nat → List Char → Option (JsonValue × List Char)
  | 0, _ => none
  | _ + 1, [] => none
  | fuel + 1, c :: r =>
    if c = 'n' then (expectLit ['u', 'l', 'l'] r).map (fun r2 => (.null, r2))
    else if c = 't' then (expectLit ['r', 'u', 'e'] r).map (fun r2 => (.bool true, r2))
    else if c = 'f' then (expectLit ['a', 'l', 's', 'e'] r).map (fun r2 => (.bool false, r2))
    else if c = '"' then (parseStringBody r).map (fun p => (.str (String.mk p.1), p.2))
    else if c = '[' then (parseItems fuel r).map (fun p => (.arr p.1, p.2))
    else if c = lbrace then (parseFieldsP fuel r).map (fun p => (.obj p.1, p.2))
    else if c = '-' then (parseNatChars r).map (fun p => (.num (-(p.1 : Int)), p.2))
    else if c.isDigit then (parseNatChars (c :: r)).map (fun p => (.num (p.1 : Int), p.2))
    else none

/-- Fuelled parser for array elements after the opening bracket. -/
def parseItems : Nat → List Char → Option (JsonList × List Char)
  | 0, _ => none
  | fuel + 1, cs =>
    if cs.head? = some ']' then some (.nil, cs.tail)
    else
      (parseVal fuel cs).bind (fun p =>
        match p.2 with
        | ',' :: r2 => (parseItems fuel r2).map (fun q => (.cons p.1 q.1, q.2))
        | ']' :: r2 => some (.cons p.1 .nil, r2)
        | _ => none)

/-- Fuelled parser for object members after the opening brace. -/
def parseFieldsP : Nat → List Char → Option (JsonFields × List Char)
  | 0, _ => none
  | fuel + 1, cs =>
    if cs.head? = some rbrace then some (.nil, cs.tail)
    else
      match cs with
      | '"' :: r =>
        (parseStringBody r).bind (fun kp =>
          match kp.2 with
          | ':' :: r2 =>
            (parseVal fuel r2).bind (fun vp =>
              match vp.2 with
              | ',' :: r3 =>
                (parseFieldsP fuel r3).map (fun q =>
                  (.cons (String.mk kp.1) vp.1 q.1, q.2))
              | c3 :: r3 =>
                if c3 = rbrace then some (.cons (String.mk kp.1) vp.1 .nil, r3) else none
              | [] => none)
          | _ => none)
      | _ => none

end

/-- Parse a request id (string or integer). -/
def parseId (cs : List Char) : Option (ReqId × List Char) :=
  match cs with
  | '"' :: r => (parseStringBody r).map (fun p => (.str (String.mk p.1), p.2))
  | _ => (parseIntChars cs).map (fun p => (.num p.1, p.2))

/-- Modelled from the spec: decode one newline-terminated frame back into a
Response message. -/
def decodeFrame (s : String) : Option ResponseMsg :=
  (expectLit frameHead s.data).bind (fun r1 =>
    (parseId r1).bind (fun ip =>
      match expectLit frameResultSep ip.2 with
      | some r2 =>
        (parseVal (r2.length + 1) r2).bind (fun vp =>
          if vp.2 = [rbrace, '\n'] then some ⟨ip.1, .result vp.1⟩ else none)
      | none =>
        (expectLit frameErrorSep ip.2).bind (fun r2 =>
          (parseIntChars r2).bind (fun cp =>
            (expectLit frameMessageSep cp.2).bind (fun r3 =>
              match r3 with
              | '"' :: r4 =>
                (parseStringBody r4).bind (fun mp =>
                  if mp.2 = [rbrace, rbrace, '\n'] then
                    some ⟨ip.1, .error cp.1 (String.mk mp.1)⟩
                  else none)
              | _ => none)))))

mutual

/-- Fuel sufficient for `parseVal` to parse the encoding of a value. -/
def nfV : JsonValue → Nat
  | .null => 1
  | .bool _ => 1
  | .num _ => 1
  | .str _ => 1
  | .arr xs => 1 + nfL xs
  | .obj fields => 1 + nfF fields

/-- Fuel sufficient for `parseItems` on an encoded array body. -/
def nfL : JsonList → Nat
  | .nil => 1
  | .cons v .nil => 1 + nfV v
  | .cons v (.cons v2 tl) => 1 + max (nfV v) (nfL (.cons v2 tl))

/-- Fuel sufficient for `parseFieldsP` on an encoded object body. -/
def nfF : JsonFields → Nat
  | .nil => 1
  | .cons _ v .nil => 1 + nfV v
  | .cons _ v (.cons k2 v2 tl) => 1 + max (nfV v) (nfF (.cons k2 v2 tl))

end

-- ===========================================================================
-- Concrete fixtures used by the witnesses and counterexamples
-- ===========================================================================

/-- A plain file stat (mode 0644, 10 bytes). -/
def fileStat0 : FileStat :=
  ⟨false, false, 10, "2024-01-01T00:00:00.000Z", "2024-01-02T03:04:05.000Z",
   "2024-01-03T00:00:00.000Z", 420⟩

/-- A directory stat. -/
def dirStat0 : FileStat :=
  ⟨true, false, 4096, "2024-01-01T00:00:00.000Z", "2024-01-02T03:04:05.000Z",
   "2024-01-03T00:00:00.000Z", 493⟩

/-- A 3-byte png stat. -/
def pngStat0 : FileStat :=
  ⟨false, false, 3, "2024-01-01T00:00:00.000Z", "2024-01-02T03:04:05.000Z",
   "2024-01-03T00:00:00.000Z", 420⟩

/-- The main sample filesystem: `/a.txt`, `/img.png`, an empty directory
`/w` (the cwd), everything readable and writable. -/
def wFS : FS where
  root := .dir dirStat0
    [("a.txt", .file fileStat0 "hi"),
     ("img.png", .file pngStat0 "PNG"),
     ("w", .dir dirStat0 [])]
  cwd := "/w"
  readable := fun _ => true
  writable := fun _ => true

/-- A filesystem whose root directory is itself named `node_modules` and
contains one TypeScript file. -/
def fsC9 : FS where
  root := .dir dirStat0
    [("node_modules", .dir dirStat0 [("a.ts", .file fileStat0 "x")])]
  cwd := "/"
  readable := fun _ => true
  writable := fun _ => true

/-- The argument map of the C9 counterexample: search `/node_modules` for
`*`. -/
def argsC9 : ToolArgs :=
  [("directory", .str "/node_modules"), ("pattern", .str "*")]

/-- A registry with one tool already registered. -/
def regW : ToolRegistry := ⟨[("read_file", readFileTool)]⟩

/-- A filesystem on which nothing may be read: its root directory cannot be
scanned and its one file `/a.txt`, though present, cannot be opened. -/
def fsNoRead : FS where
  root := .dir dirStat0 [("a.txt", .file fileStat0 "hi")]
  cwd := "/"
  readable := fun _ => false
  writable := fun _ => true

/-- A root directory holding three matching `.ts` files, for exercising a
fractional `maxResults`. -/
def fsB : FS where
  root := .dir dirStat0
    [("a.ts", .file fileStat0 "x"),
     ("b.ts", .file fileStat0 "x"),
     ("c.ts", .file fileStat0 "x")]
  cwd := "/"
  readable := fun _ => true
  writable := fun _ => true

/-- Search `/` for `*` with the schema-valid fractional bound `2.5`. -/
def argsB : ToolArgs :=
  [("directory", .str "/"), ("pattern", .str "*"), ("maxResults", .num (5 / 2))]

-- ===========================================================================
-- Predicates used by the theorem statements
-- ===========================================================================

/-- A well-formed tool result: it carries at least one content block, and
when it is flagged as an error its content is the single explanatory
`ERROR:`-prefixed text that `err` builds. -/
def WFResult (r : ToolResult) : Prop :=
  r.content ≠ [] ∧
    (r.isError = some true → ∃ m, r.content.map ContentBlock.text = ["ERROR: " ++ m])

mutual

/-- The tree with every directory entry named in `prunedDirNames` removed,
at every level: the part of the filesystem `walkAndMatch` may visit below
its root. -/
def pruneTree : FSNode → FSNode
  | .file st c => .file st c
  | .dir st children => .dir st (pruneChildren children)

/-- Entry-list counterpart of `pruneTree`. -/
def pruneChildren : List (String × FSNode) → List (String × FSNode)
  | [] => []
  | (name, child) :: rest =>
    match child with
    | .dir _ _ =>
      if prunedDirNames.contains name then pruneChildren rest
      else (name, pruneTree child) :: pruneChildren rest
    | .file _ _ => (name, child) :: pruneChildren rest

end

/-- `p` lies under a directory whose name is exactly `d`: some `/`-separated
component of `p` other than the last equals `d`. -/
def underDirNamed (d p : String) : Prop :=
  ∃ pre suf, p = pre ++ d ++ "/" ++ suf ∧ (pre = "" ∨ strEndsWith pre "/" = true)

-- ===========================================================================
-- Shared lemmas about tool results and schema validation
-- ===========================================================================

theorem wf_ok (s : String) : WFResult (ok s) := by
  refine ⟨by simp [ok], fun h => by simp [ok] at h⟩

theorem wf_err (s : String) : WFResult (err s) := by
  exact ⟨by simp [err], fun _ => ⟨s, by simp [err]⟩⟩

theorem wf_runCatch (w : String → String) (body : Except String ToolResult)
    (h : ∀ r, body = .ok r → WFResult r) : WFResult (runCatch w body) := by
  cases body with
  | ok r => exact h r rfl
  | error e => exact wf_err _

theorem getArg_mem {args : ToolArgs} {k : String} {v : JVal}
    (h : getArg args k = some v) : (k, v) ∈ args := by
  induction args with
  | nil => simp [getArg] at h
  | cons kv rest ih =>
    obtain ⟨k2, v2⟩ := kv
    by_cases hk : k2 = k
    · subst hk
      simp [getArg] at h
      simp [h]
    · simp [getArg, hk] at h
      exact List.mem_cons_of_mem _ (ih h)

theorem schema_string_arg {sch : InputSchema} {args : ToolArgs} {k : String}
    (hsat : satisfiesSchema sch args = true) (hreq : k ∈ sch.required)
    (hprop : lookupProp sch.properties k = some .string) :
    ∃ s, getArg args k = some (.str s) := by
  simp only [satisfiesSchema, Bool.and_eq_true, List.all_eq_true] at hsat
  obtain ⟨hreqs, htypes⟩ := hsat
  have h1 := hreqs k hreq
  cases hget : getArg args k with
  | none => rw [hget] at h1; simp at h1
  | some v =>
    have h2 := htypes (k, v) (getArg_mem hget)
    rw [hprop] at h2
    simp at h2
    cases v with
    | str s => exact ⟨s, rfl⟩
    | num n => simp [JVal.jtype] at h2
    | bool b => simp [JVal.jtype] at h2

-- per-tool totality

theorem readFile_handler_total (fs : FS) (args : ToolArgs) (s : String)
    (hs : getArg args "path" = some (.str s)) :
    ∃ r, readFileTool.handler fs args = .ok r ∧ WFResult r := by
  simp only [readFileTool, hs, safePath, Bind.bind, Except.bind, pure, Except.pure]
  refine ⟨_, rfl, wf_runCatch _ _ ?_⟩
  intro r hr
  cases hstat : nodeStat fs (resolvePath fs.cwd s) with
  | error e => rw [hstat] at hr; simp at hr
  | ok st =>
    rw [hstat] at hr
    simp only [Bind.bind, Except.bind] at hr
    by_cases hdir : st.isDirectory
    · simp [hdir, pure, Except.pure] at hr
      exact hr ▸ wf_err _
    · simp only [hdir, if_false, Bool.false_eq_true] at hr
      cases hread : nodeReadFileEnc fs (resolvePath fs.cwd s) (readEncoding args) with
      | error e => rw [hread] at hr; simp at hr
      | ok content =>
        rw [hread] at hr
        simp [pure, Except.pure] at hr
        exact hr ▸ wf_ok _

theorem writeFile_handler_total (fs : FS) (args : ToolArgs) (s : String)
    (hs : getArg args "path" = some (.str s)) :
    ∃ r, writeFileTool.handler fs args = .ok r ∧ WFResult r := by
  simp only [writeFileTool, hs, safePath, Bind.bind, Except.bind, pure, Except.pure]
  refine ⟨_, rfl, wf_runCatch _ _ ?_⟩
  intro r hr
  cases hmk : nodeMkdir fs (dirname (resolvePath fs.cwd s)) with
  | error e => rw [hmk] at hr; simp at hr
  | ok u =>
    rw [hmk] at hr
    simp only [Bind.bind, Except.bind] at hr
    by_cases happ : getBoolD args "append" false
    · simp only [happ, if_true] at hr
      cases hap : nodeAppendFile fs (resolvePath fs.cwd s) with
      | error e => rw [hap] at hr; simp at hr
      | ok u2 =>
        rw [hap] at hr
        simp [pure, Except.pure] at hr
        exact hr ▸ wf_ok _
    · simp only [happ, if_false] at hr
      cases hwr : nodeWriteFile fs (resolvePath fs.cwd s) with
      | error e => rw [hwr] at hr; simp at hr
      | ok u2 =>
        rw [hwr] at hr
        simp [pure, Except.pure] at hr
        exact hr ▸ wf_ok _

theorem listDirectory_handler_total (fs : FS) (args : ToolArgs) (s : String)
    (hs : getArg args "path" = some (.str s)) :
    ∃ r, listDirectoryTool.handler fs args = .ok r ∧ WFResult r := by
  simp only [listDirectoryTool, hs, safePath, Bind.bind, Except.bind, pure, Except.pure]
  refine ⟨_, rfl, wf_runCatch _ _ ?_⟩
  intro r hr
  cases hstat : nodeStat fs (resolvePath fs.cwd s) with
  | error e => rw [hstat] at hr; simp at hr
  | ok st =>
    rw [hstat] at hr
    simp only [Bind.bind, Except.bind] at hr
    by_cases hdir : st.isDirectory
    · simp only [hdir, not_true, Bool.not_true, if_false] at hr
      cases hlo : fs.lookup (resolvePath fs.cwd s) with
      | none => rw [hlo] at hr; simp at hr
      | some node =>
        rw [hlo] at hr
        simp only [Bind.bind, Except.bind] at hr
        cases hce : collectEntries fs (resolvePath fs.cwd s) node (resolvePath fs.cwd s)
            (getBoolD args "recursive" false)
            ["Directory: " ++ resolvePath fs.cwd s ++ "\n"] with
        | error e => rw [hce] at hr; simp at hr
        | ok lines =>
          rw [hce] at hr
          simp [pure, Except.pure] at hr
          exact hr ▸ wf_ok _
    · simp only [hdir, Bool.not_false, if_true] at hr
      simp [pure, Except.pure] at hr
      exact hr ▸ wf_err _

theorem searchFiles_handler_total (fs : FS) (args : ToolArgs) (s : String)
    (hs : getArg args "directory" = some (.str s)) :
    ∃ r, searchFilesTool.handler fs args = .ok r ∧ WFResult r := by
  simp only [searchFilesTool, hs, safePath, Bind.bind, Except.bind, pure, Except.pure]
  refine ⟨_, rfl, wf_runCatch _ _ ?_⟩
  intro r hr
  cases hrx : compileRegex (replaceStars (escapeRegexChars (getStrD args "pattern" ""))) with
  | error e => rw [hrx] at hr; simp at hr
  | ok rx =>
    rw [hrx] at hr
    simp only [Bind.bind, Except.bind] at hr
    split at hr <;>
      · simp [pure, Except.pure] at hr
        exact hr ▸ wf_ok _

theorem getFileInfo_handler_total (fs : FS) (args : ToolArgs) (s : String)
    (hs : getArg args "path" = some (.str s)) :
    ∃ r, getFileInfoTool.handler fs args = .ok r ∧ WFResult r := by
  simp only [getFileInfoTool, hs, safePath, Bind.bind, Except.bind, pure, Except.pure]
  refine ⟨_, rfl, wf_runCatch _ _ ?_⟩
  intro r hr
  cases hstat : nodeStat fs (resolvePath fs.cwd s) with
  | error e => rw [hstat] at hr; simp at hr
  | ok st =>
    rw [hstat] at hr
    simp [pure, Except.pure] at hr
    exact hr ▸ wf_ok _

theorem deleteFile_handler_total (fs : FS) (args : ToolArgs) (s : String)
    (hs : getArg args "path" = some (.str s)) :
    ∃ r, deleteFileTool.handler fs args = .ok r ∧ WFResult r := by
  simp only [deleteFileTool, hs, safePath, Bind.bind, Except.bind, pure, Except.pure]
  refine ⟨_, rfl, wf_runCatch _ _ ?_⟩
  intro r hr
  cases hstat : nodeStat fs (resolvePath fs.cwd s) with
  | error e => rw [hstat] at hr; simp at hr
  | ok st =>
    rw [hstat] at hr
    simp only [Bind.bind, Except.bind] at hr
    by_cases hdir : st.isDirectory
    · simp only [hdir, if_true] at hr
      simp [pure, Except.pure] at hr
      exact hr ▸ wf_err _
    · simp only [hdir, if_false, Bool.false_eq_true] at hr
      cases hun : nodeUnlink fs (resolvePath fs.cwd s) with
      | error e => rw [hun] at hr; simp at hr
      | ok u =>
        rw [hun] at hr
        simp [pure, Except.pure] at hr
        exact hr ▸ wf_ok _

/-- Claim C1: for every tool in `ALL_TOOLS` and every argument map satisfying
the tool's declared `inputSchema`, the handler never lets an exception
escape: it always returns a `ToolResult` with non-empty content, a result
flagged `isError: true` is always a single explanatory `ERROR:`-prefixed
text, and every domain failure is reported through exactly that form —
each stat/read/mkdir/write/append/unlink error and each wrong-file-kind
case of the six handlers yields the corresponding `err` result instead of
a thrown error. -/
theorem c1_handlers_never_throw :
    (∀ t ∈ ALL_TOOLS, ∀ (fs : FS) (args : ToolArgs),
      satisfiesSchema t.inputSchema args = true →
      ∃ r, t.handler fs args = Except.ok r ∧ r.content ≠ [] ∧
        (r.isError = some true →
          ∃ m, r.content.map ContentBlock.text = ["ERROR: " ++ m])) ∧
    (∀ (fs : FS) (args : ToolArgs) (p e : String),
      getArg args "path" = some (JVal.str p) →
      nodeStat fs (resolvePath fs.cwd p) = .error e →
      readFileTool.handler fs args = .ok (err ("Could not read file: " ++ e))) ∧
    (∀ (fs : FS) (args : ToolArgs) (p : String) (st : FileStat),
      getArg args "path" = some (JVal.str p) →
      nodeStat fs (resolvePath fs.cwd p) = .ok st → st.isDirectory = true →
      readFileTool.handler fs args = .ok (err
        (quoted (resolvePath fs.cwd p) ++ " is a directory. Use list_directory instead."))) ∧
    (∀ (fs : FS) (args : ToolArgs) (p : String) (st : FileStat) (e : String),
      getArg args "path" = some (JVal.str p) →
      nodeStat fs (resolvePath fs.cwd p) = .ok st → st.isDirectory = false →
      nodeReadFileEnc fs (resolvePath fs.cwd p) (readEncoding args) = .error e →
      readFileTool.handler fs args = .ok (err ("Could not read file: " ++ e))) ∧
    (∀ (fs : FS) (args : ToolArgs) (p e : String),
      getArg args "path" = some (JVal.str p) →
      nodeMkdir fs (dirname (resolvePath fs.cwd p)) = .error e →
      writeFileTool.handler fs args = .ok (err ("Could not write file: " ++ e))) ∧
    (∀ (fs : FS) (args : ToolArgs) (p e : String),
      getArg args "path" = some (JVal.str p) →
      nodeMkdir fs (dirname (resolvePath fs.cwd p)) = .ok () →
      getBoolD args "append" false = true →
      nodeAppendFile fs (resolvePath fs.cwd p) = .error e →
      writeFileTool.handler fs args = .ok (err ("Could not write file: " ++ e))) ∧
    (∀ (fs : FS) (args : ToolArgs) (p e : String),
      getArg args "path" = some (JVal.str p) →
      nodeMkdir fs (dirname (resolvePath fs.cwd p)) = .ok () →
      getBoolD args "append" false = false →
      nodeWriteFile fs (resolvePath fs.cwd p) = .error e →
      writeFileTool.handler fs args = .ok (err ("Could not write file: " ++ e))) ∧
    (∀ (fs : FS) (args : ToolArgs) (p e : String),
      getArg args "path" = some (JVal.str p) →
      nodeStat fs (resolvePath fs.cwd p) = .error e →
      listDirectoryTool.handler fs args = .ok (err ("Could not list directory: " ++ e))) ∧
    (∀ (fs : FS) (args : ToolArgs) (p : String) (st : FileStat),
      getArg args "path" = some (JVal.str p) →
      nodeStat fs (resolvePath fs.cwd p) = .ok st → st.isDirectory = false →
      listDirectoryTool.handler fs args = .ok (err
        (quoted (resolvePath fs.cwd p) ++ " is not a directory. Use read_file to read files."))) ∧
    (∀ (fs : FS) (args : ToolArgs) (p e : String) (node : FSNode),
      getArg args "path" = some (JVal.str p) →
      fs.lookup (resolvePath fs.cwd p) = some node →
      node.stat.isDirectory = true →
      collectEntries fs (resolvePath fs.cwd p) node (resolvePath fs.cwd p)
        (getBoolD args "recursive" false)
        ["Directory: " ++ resolvePath fs.cwd p ++ "\n"] = .error e →
      listDirectoryTool.handler fs args = .ok (err ("Could not list directory: " ++ e))) ∧
    (∀ (fs : FS) (args : ToolArgs) (d e : String),
      getArg args "directory" = some (JVal.str d) →
      compileRegex (replaceStars (escapeRegexChars (getStrD args "pattern" ""))) = .error e →
      searchFilesTool.handler fs args = .ok (err ("Search failed: " ++ e))) ∧
    (∀ (fs : FS) (args : ToolArgs) (p e : String),
      getArg args "path" = some (JVal.str p) →
      nodeStat fs (resolvePath fs.cwd p) = .error e →
      getFileInfoTool.handler fs args = .ok (err ("Could not stat path: " ++ e))) ∧
    (∀ (fs : FS) (args : ToolArgs) (p e : String),
      getArg args "path" = some (JVal.str p) →
      nodeStat fs (resolvePath fs.cwd p) = .error e →
      deleteFileTool.handler fs args = .ok (err ("Could not delete file: " ++ e))) ∧
    (∀ (fs : FS) (args : ToolArgs) (p : String) (st : FileStat),
      getArg args "path" = some (JVal.str p) →
      nodeStat fs (resolvePath fs.cwd p) = .ok st → st.isDirectory = true →
      deleteFileTool.handler fs args = .ok (err
        (quoted (resolvePath fs.cwd p) ++ " is a directory. This tool only deletes files."))) ∧
    (∀ (fs : FS) (args : ToolArgs) (p : String) (st : FileStat) (e : String),
      getArg args "path" = some (JVal.str p) →
      nodeStat fs (resolvePath fs.cwd p) = .ok st → st.isDirectory = false →
      nodeUnlink fs (resolvePath fs.cwd p) = .error e →
      deleteFileTool.handler fs args = .ok (err ("Could not delete file: " ++ e))) := by
  refine ⟨?_, ?_, ?_, ?_, ?_, ?_, ?_, ?_, ?_, ?_, ?_, ?_, ?_, ?_, ?_⟩
  · intro t ht fs args hsat
    simp only [ALL_TOOLS, List.mem_cons, List.mem_singleton, List.not_mem_nil, or_false] at ht
    rcases ht with rfl | rfl | rfl | rfl | rfl | rfl
    · obtain ⟨s, hs⟩ := @schema_string_arg _ _ "path" hsat (by simp [readFileTool]) (by rfl)
      obtain ⟨r, hr, hwf⟩ := readFile_handler_total fs args s hs
      exact ⟨r, hr, hwf.1, hwf.2⟩
    · obtain ⟨s, hs⟩ := @schema_string_arg _ _ "path" hsat (by simp [writeFileTool]) (by rfl)
      obtain ⟨r, hr, hwf⟩ := writeFile_handler_total fs args s hs
      exact ⟨r, hr, hwf.1, hwf.2⟩
    · obtain ⟨s, hs⟩ := @schema_string_arg _ _ "path" hsat (by simp [listDirectoryTool]) (by rfl)
      obtain ⟨r, hr, hwf⟩ := listDirectory_handler_total fs args s hs
      exact ⟨r, hr, hwf.1, hwf.2⟩
    · obtain ⟨s, hs⟩ := @schema_string_arg _ _ "directory" hsat (by simp [searchFilesTool]) (by rfl)
      obtain ⟨r, hr, hwf⟩ := searchFiles_handler_total fs args s hs
      exact ⟨r, hr, hwf.1, hwf.2⟩
    · obtain ⟨s, hs⟩ := @schema_string_arg _ _ "path" hsat (by simp [getFileInfoTool]) (by rfl)
      obtain ⟨r, hr, hwf⟩ := getFileInfo_handler_total fs args s hs
      exact ⟨r, hr, hwf.1, hwf.2⟩
    · obtain ⟨s, hs⟩ := @schema_string_arg _ _ "path" hsat (by simp [deleteFileTool]) (by rfl)
      obtain ⟨r, hr, hwf⟩ := deleteFile_handler_total fs args s hs
      exact ⟨r, hr, hwf.1, hwf.2⟩
  · intro fs args p e hp hstat
    simp [readFileTool, hp, safePath, hstat, runCatch, pure, Except.pure, Bind.bind, Except.bind]
  · intro fs args p st hp hstat hdir
    simp [readFileTool, hp, safePath, hstat, hdir, runCatch, pure, Except.pure,
      Bind.bind, Except.bind]
  · intro fs args p st e hp hstat hdir hread
    simp [readFileTool, hp, safePath, hstat, hdir, hread, runCatch, pure, Except.pure,
      Bind.bind, Except.bind]
  · intro fs args p e hp hmk
    simp [writeFileTool, hp, safePath, hmk, runCatch, pure, Except.pure, Bind.bind, Except.bind]
  · intro fs args p e hp hmk happ hap
    simp [writeFileTool, hp, safePath, hmk, happ, hap, runCatch, pure, Except.pure,
      Bind.bind, Except.bind]
  · intro fs args p e hp hmk happ hwr
    simp [writeFileTool, hp, safePath, hmk, happ, hwr, runCatch, pure, Except.pure,
      Bind.bind, Except.bind]
  · intro fs args p e hp hstat
    simp [listDirectoryTool, hp, safePath, hstat, runCatch, pure, Except.pure,
      Bind.bind, Except.bind]
  · intro fs args p st hp hstat hdir
    simp [listDirectoryTool, hp, safePath, hstat, hdir, runCatch, pure, Except.pure,
      Bind.bind, Except.bind]
  · intro fs args p e node hp hlo hdir hce
    have hstat : nodeStat fs (resolvePath fs.cwd p) = .ok node.stat := by
      simp [nodeStat, hlo]
    simp [listDirectoryTool, hp, safePath, hstat, hdir, hlo, hce, runCatch, pure,
      Except.pure, Bind.bind, Except.bind]
  · intro fs args d e hd hrx
    simp [searchFilesTool, hd, safePath, hrx, runCatch, pure, Except.pure,
      Bind.bind, Except.bind]
  · intro fs args p e hp hstat
    simp [getFileInfoTool, hp, safePath, hstat, runCatch, pure, Except.pure,
      Bind.bind, Except.bind]
  · intro fs args p e hp hstat
    simp [deleteFileTool, hp, safePath, hstat, runCatch, pure, Except.pure,
      Bind.bind, Except.bind]
  · intro fs args p st hp hstat hdir
    simp [deleteFileTool, hp, safePath, hstat, hdir, runCatch, pure, Except.pure,
      Bind.bind, Except.bind]
  · intro fs args p st e hp hstat hdir hun
    simp [deleteFileTool, hp, safePath, hstat, hdir, hun, runCatch, pure, Except.pure,
      Bind.bind, Except.bind]

/-- Witness for C1 at concrete inputs: a schema-valid `read_file` call, the
`stat` failure of `get_file_info` on a missing path, and the wrong-kind
failure of `delete_file` on a directory. -/
theorem c1_handlers_never_throw_witness :
    (satisfiesSchema readFileTool.inputSchema [("path", JVal.str "/a.txt")] = true ∧
     ∃ r, readFileTool.handler wFS [("path", JVal.str "/a.txt")] = Except.ok r ∧
       r.content ≠ [] ∧
       (r.isError = some true →
         ∃ m, r.content.map ContentBlock.text = ["ERROR: " ++ m])) ∧
    getFileInfoTool.handler wFS [("path", JVal.str "/ghost")] =
      Except.ok (err ("Could not stat path: " ++ enoentMsg "stat" "/ghost")) ∧
    deleteFileTool.handler wFS [("path", JVal.str "/w")] =
      Except.ok (err (quoted "/w" ++ " is a directory. This tool only deletes files.")) := by
  obtain ⟨h1, -, -, -, -, -, -, -, -, -, -, h12, -, h14, -⟩ := c1_handlers_never_throw
  exact ⟨⟨by decide, h1 readFileTool (by simp [ALL_TOOLS]) wFS
      [("path", JVal.str "/a.txt")] (by decide)⟩,
    h12 wFS [("path", JVal.str "/ghost")] "/ghost" (enoentMsg "stat" "/ghost") rfl rfl,
    h14 wFS [("path", JVal.str "/w")] "/w" dirStat0 rfl rfl rfl⟩

/-- Counterexample to claim C2 as stated: the handler stats
`path.resolve(cwd, path)`, so with the argument `/ghost/` (cwd `/w`) the
error text quotes the normalised `/ghost` and contains that resolved path,
but not the `/ghost/` the caller passed. -/
theorem c2_counterexample :
    ∃ r, getFileInfoTool.handler wFS [("path", JVal.str "/ghost/")] = Except.ok r ∧
      r.isError = some true ∧
      ∀ b ∈ r.content, strContains b.text "/ghost/" = false ∧
        strContains b.text (resolvePath wFS.cwd "/ghost/") = true := by
  refine ⟨err ("Could not stat path: " ++ enoentMsg "stat" "/ghost"), rfl, rfl, ?_⟩
  intro b hb
  simp only [err, List.mem_singleton] at hb
  subst hb
  exact ⟨by decide, by decide⟩

/-- Claim C2 (amended): invoking `get_file_info` with a path argument naming
a non-existent filesystem entry yields (without throwing) a result flagged
`isError: true` whose single text message contains the resolved form
`path.resolve(cwd, path)` of that path — the argument itself exactly when
the argument is already resolved. -/
theorem c2_get_file_info_missing_path :
    ∀ (fs : FS) (args : ToolArgs) (p : String),
      getArg args "path" = some (JVal.str p) →
      fs.lookup (resolvePath fs.cwd p) = none →
      ∃ r pre post, getFileInfoTool.handler fs args = Except.ok r ∧
        r.isError = some true ∧
        r.content.map ContentBlock.text = [pre ++ resolvePath fs.cwd p ++ post] := by
  intro fs args p hp hlo
  have hstat : nodeStat fs (resolvePath fs.cwd p) =
      .error (enoentMsg "stat" (resolvePath fs.cwd p)) := by
    simp [nodeStat, hlo]
  simp only [getFileInfoTool, hp, safePath, Bind.bind, Except.bind, pure, Except.pure, hstat,
    runCatch]
  exact ⟨_, "ERROR: Could not stat path: ENOENT: no such file or directory, stat \x27",
    "\x27", rfl, rfl, rfl⟩

/-- Witness for C2 at a concrete input: `get_file_info` on the already
resolved `/ghost` over the sample filesystem. -/
theorem c2_get_file_info_missing_path_witness :
    ∃ r pre post,
      getFileInfoTool.handler wFS [("path", JVal.str "/ghost")] = Except.ok r ∧
      r.isError = some true ∧
      r.content.map ContentBlock.text = [pre ++ "/ghost" ++ post] :=
  c2_get_file_info_missing_path wFS [("path", JVal.str "/ghost")] "/ghost" rfl rfl

-- ===========================================================================
-- C3 — resources/read on a directory-style URI
-- ===========================================================================

/-- Counterexample to claim C3 as stated: on a directory-style URI whose
directory does not exist, `readResource` does not return a `ResourceContent`
at all — the `readdir` failure escapes (the trailing-slash branch runs
before the `try` block), so "returns a text listing" fails for that URI. -/
theorem c3_counterexample :
    readResource wFS "file:///nope/" = Except.error (enoentMsg "scandir" "/nope") ∧
    ∀ c, readResource wFS "file:///nope/" ≠ Except.ok c := by
  refine ⟨rfl, fun c h => ?_⟩
  exact Except.noConfusion
    (show Except.error (enoentMsg "scandir" "/nope") = Except.ok c from h)

/-- Claim C3 (amended): for every `file://` URI whose path part ends with a
trailing separator, whenever the directory listing succeeds `readResource`
returns it as `text/plain` text with no blob; and any successful result for
such a URI is `text/plain` with an absent blob — it never returns a base64
blob for such a URI. -/
theorem c3_directory_uri_text_listing :
    ∀ (fs : FS) (uri : String),
      strStartsWith uri "file://" = true →
      strEndsWith (strDrop uri 7) "/" = true →
      (∀ listing,
        buildDirectoryListing fs
          (if strIsEmpty (strDropRight (strDrop uri 7) 1) then "/"
           else strDropRight (strDrop uri 7) 1) = .ok listing →
        readResource fs uri = .ok ⟨uri, "text/plain", some listing, none⟩) ∧
      (∀ c, readResource fs uri = .ok c → c.mimeType = "text/plain" ∧ c.blob = none) := by
  intro fs uri hpre hslash
  simp only [readResource, hpre, hslash, Bool.true_eq_false, not_true, if_true, if_false,
    Bind.bind, Except.bind, pure, Except.pure, ite_not]
  constructor
  · intro listing hlist
    rw [hlist]
  · intro c hc
    cases hlist : buildDirectoryListing fs
        (if strIsEmpty (strDropRight (strDrop uri 7) 1) then "/"
         else strDropRight (strDrop uri 7) 1) with
    | error e => rw [hlist] at hc; exact Except.noConfusion hc
    | ok l =>
      rw [hlist] at hc
      cases hc
      exact ⟨rfl, rfl⟩

/-- Witness for C3 (amended) at a concrete input: the existing directory
`/w/` is listed as text. -/
theorem c3_directory_uri_text_listing_witness :
    readResource wFS "file:///w/" =
      Except.ok ⟨"file:///w/", "text/plain", some "Directory listing: /w\n", none⟩ :=
  (c3_directory_uri_text_listing wFS "file:///w/" (by decide) (by decide)).1
    "Directory listing: /w\n" (by rfl)

-- ===========================================================================
-- C4 — static resource precedence over templates
-- ===========================================================================

theorem strStartsWith_append (pre x : String) : strStartsWith (pre ++ x) pre = true := by
  simp only [strStartsWith, String.data_append]
  exact List.isPrefixOf_iff_prefix.mpr (List.prefix_append _ _)

theorem buildStatic_uri_starts (fs : FS) :
    ∀ i ∈ buildStaticResources fs, strStartsWith i.uri "file://" = true := by
  intro i hi
  simp only [buildStaticResources, List.mem_append] at hi
  rcases hi with hi | hi
  · obtain ⟨cand, _, hc⟩ := List.mem_filterMap.mp hi
    by_cases hacc : nodeAccess fs (joinPath fs.cwd cand.1)
    · simp only [hacc, if_true] at hc
      cases hc
      exact strStartsWith_append "file://" _
    · simp [hacc] at hc
  · simp only [List.mem_singleton] at hi
    subst hi
    simp only [workingDirResource]
    have : "file://" ++ fs.cwd ++ "/" = "file://" ++ (fs.cwd ++ "/") :=
      String.append_assoc _ _ _
    rw [this]
    exact strStartsWith_append "file://" _

/-- Claim C4: a concrete URI that both matches a registered static entry and
a registered template resolves to the static entry — in general for any
registry, and in particular for the registration sequence `main` performs
(where the `file://{path}` template matches every static URI). -/
theorem c4_static_beats_template :
    (∀ (regs : List RegisteredResource) (uri : String),
      (∃ i, RegisteredResource.staticR i ∈ regs ∧ i.uri = uri) →
      (∃ r ∈ regs, r.isTemplateFor uri = true) →
      ∃ i, resolveResource regs uri = some (.staticR i) ∧ i.uri = uri) ∧
    (∀ (fs : FS) (uri : String),
      (∃ i ∈ buildStaticResources fs, i.uri = uri) →
      ∃ i, resolveResource (serverRegistrations fs) uri = some (.staticR i) ∧ i.uri = uri) := by
  have main : ∀ (regs : List RegisteredResource) (uri : String),
      (∃ i, RegisteredResource.staticR i ∈ regs ∧ i.uri = uri) →
      ∃ i, resolveResource regs uri = some (.staticR i) ∧ i.uri = uri := by
    intro regs uri ⟨i, hmem, hi⟩
    have hex : ∃ r ∈ regs, RegisteredResource.isStaticFor uri r = true :=
      ⟨.staticR i, hmem, by simp [RegisteredResource.isStaticFor, hi]⟩
    cases hfind : regs.find? (RegisteredResource.isStaticFor uri) with
    | none =>
      obtain ⟨r, hr, hp⟩ := hex
      exact absurd hp (by simpa using List.find?_eq_none.mp hfind r hr)
    | some r =>
      have hp := List.find?_some hfind
      cases r with
      | templateR t => simp [RegisteredResource.isStaticFor] at hp
      | staticR i2 =>
        refine ⟨i2, ?_, ?_⟩
        · simp [resolveResource, hfind]
        · simpa [RegisteredResource.isStaticFor] using hp
  refine ⟨fun regs uri hs _ => main regs uri hs, ?_⟩
  intro fs uri ⟨i, hmem, hi⟩
  have hm : RegisteredResource.staticR i ∈ serverRegistrations fs := by
    simp only [serverRegistrations, List.mem_append]
    exact Or.inl (List.mem_map_of_mem _ hmem)
  exact main (serverRegistrations fs) uri ⟨i, hm, hi⟩

/-- Witness for C4 at a concrete input: the working-directory static entry
wins over the `file://{path}` template for its own URI. -/
theorem c4_static_beats_template_witness :
    ∃ i, resolveResource (serverRegistrations wFS) "file:///w/" = some (.staticR i) ∧
      i.uri = "file:///w/" :=
  c4_static_beats_template.2 wFS "file:///w/"
    ⟨workingDirResource "/w", by decide, by decide⟩

-- ===========================================================================
-- C10 — the static resource catalog is never empty
-- ===========================================================================

/-- Claim C10: `buildStaticResources` always returns a non-empty list whose
last element is the working-directory entry with uri `file://<cwd>/` and
mime type `text/plain`, regardless of which candidate files exist. -/
theorem c10_static_resources_nonempty :
    ∀ fs : FS, buildStaticResources fs ≠ [] ∧
      (buildStaticResources fs).getLast? = some (workingDirResource fs.cwd) ∧
      (workingDirResource fs.cwd).uri = "file://" ++ fs.cwd ++ "/" ∧
      (workingDirResource fs.cwd).mimeType = "text/plain" := by
  intro fs
  refine ⟨by simp [buildStaticResources], ?_, rfl, rfl⟩
  simp [buildStaticResources]

-- ===========================================================================
-- C5 — prompt generators never crash
-- ===========================================================================

/-- Claim C5: every registered prompt generator, on every argument map — in
particular one missing required arguments, such as the empty map — returns
(never throws) a non-empty ordered sequence of role-tagged messages. -/
theorem c5_prompts_never_crash :
    ∀ p ∈ ALL_PROMPTS, ∀ (fs : FS) (args : PromptArgs),
      ∃ msgs, p.generate fs args = Except.ok msgs ∧ msgs ≠ [] ∧
        ∀ m ∈ msgs, m.role = .user ∨ m.role = .assistant := by
  intro p hp fs args
  simp only [ALL_PROMPTS, List.mem_cons, List.mem_singleton, List.not_mem_nil, or_false] at hp
  rcases hp with rfl | rfl | rfl
  · exact ⟨_, rfl, by simp, by simp⟩
  · exact ⟨_, rfl, by simp, by simp⟩
  · exact ⟨_, rfl, by simp, by simp⟩

/-- Witness for C5 at a concrete input: `review-file` invoked with the empty
argument map (its required `path` missing) still produces messages. -/
theorem c5_prompts_never_crash_witness :
    ∃ msgs, reviewFilePrompt.generate wFS [] = Except.ok msgs ∧ msgs ≠ [] ∧
      ∀ m ∈ msgs, m.role = .user ∨ m.role = .assistant :=
  c5_prompts_never_crash reviewFilePrompt (by simp [ALL_PROMPTS]) wFS []

-- ===========================================================================
-- C6 — duplicate tool registration fails
-- ===========================================================================

/-- Claim C6: registering a tool under an already-registered name fails with
the duplicate-name fault (at startup, before any session), and successful
registrations preserve distinctness of the registry's names, so the
registry never holds two tools with the same name. -/
theorem c6_register_tool_duplicate :
    ∀ (reg : ToolRegistry) (nm : String) (t : ToolDefinition),
      (reg.names.contains nm = true →
        registerTool reg nm t =
          .error ("DuplicateNameError: tool " ++ quoted nm ++ " is already registered")) ∧
      (∀ reg2, registerTool reg nm t = .ok reg2 →
        reg.names.Nodup → reg2.names.Nodup) := by
  intro reg nm t
  constructor
  · intro h
    have hm : nm ∈ reg.names := List.mem_of_elem_eq_true h
    simp [registerTool, hm]
  · intro reg2 h hnd
    unfold registerTool at h
    by_cases hm : nm ∈ reg.names
    · rw [if_pos (by exact_mod_cast List.elem_eq_true_of_mem hm)] at h
      exact Except.noConfusion h
    · rw [if_neg (by simpa using hm)] at h
      cases h
      simp only [ToolRegistry.names, List.map_append, List.map_cons, List.map_nil]
      rw [List.nodup_append]
      refine ⟨hnd, List.nodup_singleton _, ?_⟩
      intro a ha hb
      simp only [List.mem_singleton] at hb
      subst hb
      exact hm ha

/-- Witness for C6 at concrete inputs: re-registering `read_file` on a
registry that already holds it fails with the duplicate fault, and a fresh
successful registration has distinct names. -/
theorem c6_register_tool_duplicate_witness :
    registerTool regW "read_file" readFileTool =
      .error ("DuplicateNameError: tool " ++ quoted "read_file" ++ " is already registered") ∧
    (ToolRegistry.mk [("x", readFileTool)]).names.Nodup :=
  ⟨(c6_register_tool_duplicate regW "read_file" readFileTool).1 (by decide),
   (c6_register_tool_duplicate ⟨[]⟩ "x" readFileTool).2 ⟨[("x", readFileTool)]⟩ rfl
     (by decide)⟩

-- ===========================================================================
-- C8 — readResource text/blob decision for existing regular files
-- ===========================================================================

/-- Counterexample to claim C8 as stated over every existing regular file:
`/a.txt` exists on `fsNoRead` but cannot be opened, so `fs.readFile`
rejects and `readResource` throws the wrapped `EACCES` error — it returns
neither a text result nor a blob for that file. -/
theorem c8_counterexample :
    readResource fsNoRead "file:///a.txt" =
      Except.error ("Cannot read resource " ++ quoted "file:///a.txt" ++ ": " ++
        eaccesMsg "open" "/a.txt") ∧
    ∀ c, readResource fsNoRead "file:///a.txt" ≠ Except.ok c := by
  refine ⟨rfl, fun c h => ?_⟩
  exact Except.noConfusion
    (show Except.error ("Cannot read resource " ++ quoted "file:///a.txt" ++ ": " ++
      eaccesMsg "open" "/a.txt") = Except.ok c from h)

/-- Claim C8 (amended): for an existing *readable* regular file,
`readResource` returns `text/plain` UTF-8 text exactly when the extension
is in the text set OR the size is under 512 KiB, and an
`application/octet-stream` base64 blob only when the size is at least
512 KiB AND the extension is outside the set; in particular a small binary
file comes back as text.  (An existing but unreadable file instead throws,
as the counterexample shows.) -/
theorem c8_read_resource_text_blob_rule :
    ∀ (fs : FS) (uri : String) (st : FileStat) (content : String),
      strStartsWith uri "file://" = true →
      strEndsWith (strDrop uri 7) "/" = false →
      fs.lookup (strDrop uri 7) = some (.file st content) →
      fs.readable (strDrop uri 7) = true →
      st.isDirectory = false →
      ((textMimes.contains (lowerStr (extname (strDrop uri 7))) = true ∨
          st.size < 512 * 1024) →
        readResource fs uri = .ok ⟨uri, "text/plain", some content, none⟩) ∧
      ((textMimes.contains (lowerStr (extname (strDrop uri 7))) = false ∧
          512 * 1024 ≤ st.size) →
        readResource fs uri =
          .ok ⟨uri, "application/octet-stream", none, some (base64Encode content)⟩) := by
  intro fs uri st content hpre hslash hlook hread hdir
  have hstat : nodeStat fs (strDrop uri 7) = .ok st := by
    simp [nodeStat, hlook, FSNode.stat]
  have hrf : nodeReadFile fs (strDrop uri 7) = .ok content := by
    simp [nodeReadFile, hlook, hread]
  simp only [readResource, hpre, hslash, Bool.true_eq_false, not_true, if_true, if_false,
    Bind.bind, Except.bind, pure, Except.pure, hstat, hdir, ite_false, Bool.false_eq_true]
  constructor
  · intro h
    have h2 : (textMimes.contains (lowerStr (extname (strDrop uri 7))) = true ∨
        st.size < 512 * 1024) := h
    rw [if_pos h2, hrf]
  · intro ⟨h1, h2⟩
    rw [if_neg, hrf]
    intro hcon
    rcases hcon with hc | hc
    · rw [h1] at hc; exact Bool.noConfusion hc
    · omega

/-- Witness for C8 at a concrete input: the 3-byte `/img.png` — a binary
extension below the size threshold — is returned as UTF-8 text, not as a
blob. -/
theorem c8_read_resource_text_blob_rule_witness :
    readResource wFS "file:///img.png" =
      Except.ok ⟨"file:///img.png", "text/plain", some "PNG", none⟩ :=
  (c8_read_resource_text_blob_rule wFS "file:///img.png" pngStat0 "PNG"
    (by decide) (by decide) rfl rfl rfl).1 (Or.inr (by decide))

-- ===========================================================================
-- C9 — search_files walk: bound, pruning, error skipping
-- ===========================================================================

theorem walkChildren_of_ge (fs : FS) (entries : List (String × FSNode)) (dir : String)
    (rx : List RTok) (results : List String) (m : ℚ)
    (h : (results.length : ℚ) ≥ m) :
    walkChildren fs entries dir rx results m = results := by
  cases entries with
  | nil => rw [walkChildren.eq_def]
  | cons e rest =>
    obtain ⟨name, child⟩ := e
    rw [walkChildren.eq_def]
    simp [h]

mutual

theorem walkAndMatch_length (fs : FS) (node : FSNode) (dir : String) (rx : List RTok)
    (results : List String) (m : ℚ) :
    ((walkAndMatch fs node dir rx results m).length : Int) ≤
      max ((results.length : Int)) ⌈m⌉ := by
  rw [walkAndMatch.eq_def]
  by_cases hge : (results.length : ℚ) ≥ m
  · simp only [hge, if_true]
    exact le_max_left _ _
  · simp only [hge, if_false]
    cases node with
    | file st c => exact le_max_left _ _
    | dir st children =>
      by_cases hr : fs.readable dir
      · simp only [hr, if_true]
        exact walkChildren_length fs children dir rx results m
      · simp only [hr, Bool.false_eq_true, if_false]
        exact le_max_left _ _

theorem walkChildren_length (fs : FS) (entries : List (String × FSNode)) (dir : String)
    (rx : List RTok) (results : List String) (m : ℚ) :
    ((walkChildren fs entries dir rx results m).length : Int) ≤
      max ((results.length : Int)) ⌈m⌉ := by
  cases entries with
  | nil =>
    rw [walkChildren.eq_def]
    exact le_max_left _ _
  | cons e rest =>
    obtain ⟨name, child⟩ := e
    rw [walkChildren.eq_def]
    by_cases hge : (results.length : ℚ) ≥ m
    · simp only [hge, if_true]
      exact le_max_left _ _
    · simp only [hge, if_false]
      cases child with
      | dir st c2 =>
        by_cases hp : prunedDirNames.contains name
        · simp only [hp, if_true]
          exact walkChildren_length fs rest dir rx results m
        · simp only [hp, Bool.false_eq_true, if_false]
          have h1 := walkAndMatch_length fs (.dir st c2) (joinPath dir name) rx results m
          have h2 := walkChildren_length fs rest dir rx
            (walkAndMatch fs (.dir st c2) (joinPath dir name) rx results m) m
          omega
      | file st c2 =>
        by_cases ht : regexTest rx name
        · simp only [ht, if_true]
          have h2 := walkChildren_length fs rest dir rx (results ++ [joinPath dir name]) m
          simp only [List.length_append, List.length_singleton] at h2
          have hlt : ((results.length : Int)) < ⌈m⌉ :=
            Int.lt_ceil.mpr (by push_cast; exact lt_of_not_ge hge)
          omega
        · simp only [ht, Bool.false_eq_true, if_false]
          exact walkChildren_length fs rest dir rx results m

end

mutual

theorem walkAndMatch_prune (fs : FS) (node : FSNode) (dir : String) (rx : List RTok)
    (results : List String) (m : ℚ) :
    walkAndMatch fs (pruneTree node) dir rx results m =
      walkAndMatch fs node dir rx results m := by
  cases node with
  | file st c => rfl
  | dir st children =>
    rw [pruneTree.eq_def]
    rw [walkAndMatch.eq_def, walkAndMatch.eq_def]
    by_cases hge : (results.length : ℚ) ≥ m
    · simp only [hge, if_true]
    · simp only [hge, if_false]
      by_cases hr : fs.readable dir
      · simp only [hr, if_true]
        exact walkChildren_prune fs children dir rx results m
      · simp only [hr, Bool.false_eq_true, if_false]

theorem walkChildren_prune (fs : FS) (entries : List (String × FSNode)) (dir : String)
    (rx : List RTok) (results : List String) (m : ℚ) :
    walkChildren fs (pruneChildren entries) dir rx results m =
      walkChildren fs entries dir rx results m := by
  cases entries with
  | nil => rfl
  | cons e rest =>
    obtain ⟨name, child⟩ := e
    rw [pruneChildren.eq_def]
    cases child with
    | dir st c2 =>
      by_cases hp : prunedDirNames.contains name
      · simp only [hp, if_true]
        rw [walkChildren.eq_def fs ((name, FSNode.dir st c2) :: rest) dir rx results m]
        by_cases hge : (results.length : ℚ) ≥ m
        · simp only [hge, if_true]
          exact walkChildren_of_ge fs (pruneChildren rest) dir rx results m hge
        · simp only [hge, if_false, hp, if_true]
          exact walkChildren_prune fs rest dir rx results m
      · simp only [hp, Bool.false_eq_true, if_false]
        rw [walkChildren.eq_def, walkChildren.eq_def]
        by_cases hge : (results.length : ℚ) ≥ m
        · simp only [hge, if_true]
        · simp only [hge, if_false, hp, Bool.false_eq_true]
          rw [walkAndMatch_prune fs (.dir st c2) (joinPath dir name) rx results m]
          exact walkChildren_prune fs rest dir rx
            (walkAndMatch fs (.dir st c2) (joinPath dir name) rx results m) m
    | file st c2 =>
      simp only
      rw [walkChildren.eq_def, walkChildren.eq_def]
      by_cases hge : (results.length : ℚ) ≥ m
      · simp only [hge, if_true]
      · simp only [hge, if_false]
        by_cases ht : regexTest rx name
        · simp only [ht, if_true]
          exact walkChildren_prune fs rest dir rx (results ++ [joinPath dir name]) m
        · simp only [ht, Bool.false_eq_true, if_false]
          exact walkChildren_prune fs rest dir rx results m

end

theorem walkAndMatch_unreadable (fs : FS) (node : FSNode) (dir : String) (rx : List RTok)
    (results : List String) (m : ℚ) (h : fs.readable dir = false) :
    walkAndMatch fs node dir rx results m = results := by
  rw [walkAndMatch.eq_def]
  by_cases hge : (results.length : ℚ) ≥ m
  · simp only [hge, if_true]
  · simp only [hge, if_false]
    cases node with
    | file st c => rfl
    | dir st children => simp [h]

theorem searchFiles_handler_eval (fs : FS) (args : ToolArgs) (d p : String) (rx : List RTok)
    (hd : getArg args "directory" = some (.str d))
    (hp : getArg args "pattern" = some (.str p))
    (hc : compileRegex (replaceStars (escapeRegexChars p)) = .ok rx) :
    searchFilesTool.handler fs args = Except.ok (
      if (walkAndMatchPath fs (resolvePath fs.cwd d) rx []
            (getNumD args "maxResults" 50)).isEmpty then
        ok ("No files matching " ++ quoted p ++ " found in " ++
          quoted (resolvePath fs.cwd d) ++ ".")
      else
        ok ("Found " ++
          natStr (walkAndMatchPath fs (resolvePath fs.cwd d) rx []
            (getNumD args "maxResults" 50)).length ++
          " match(es) for " ++ quoted p ++ " in " ++ quoted (resolvePath fs.cwd d) ++ ":\n" ++
          joinSep "\n" ((walkAndMatchPath fs (resolvePath fs.cwd d) rx []
            (getNumD args "maxResults" 50)).map (fun r => "  " ++ r)))) := by
  by_cases hres : (walkAndMatchPath fs (resolvePath fs.cwd d) rx []
      (getNumD args "maxResults" 50)).isEmpty
  · simp only [searchFilesTool, hd, hp, safePath, getStrD, Bind.bind, Except.bind,
      pure, Except.pure, hc, runCatch, hres, if_true]
  · simp only [searchFilesTool, hd, hp, safePath, getStrD, Bind.bind, Except.bind,
      pure, Except.pure, hc, runCatch, hres, Bool.false_eq_true, if_false]

/-- Counterexample to claim C9 as stated, in both its clauses.  Pruning:
searching with the root directory `/node_modules` itself returns
`/node_modules/a.ts`, a file located under a directory named
`node_modules` — the walk prunes those names only below its root.  Bound:
with the schema-valid fractional `maxResults` value `2.5` the walk over
three matching files returns 3 results, exceeding `2.5`. -/
theorem c9_counterexample :
    (walkAndMatchPath fsC9 "/node_modules" [RTok.star RItem.anyChar] [] 50 =
      ["/node_modules/a.ts"] ∧
    underDirNamed "node_modules" "/node_modules/a.ts" ∧
    searchFilesTool.handler fsC9 argsC9 =
      Except.ok (ok ("Found 1 match(es) for \x27*\x27 in \x27/node_modules\x27:\n  /node_modules/a.ts"))) ∧
    (walkAndMatchPath fsB "/" [RTok.star RItem.anyChar] [] (5 / 2) =
      ["/a.ts", "/b.ts", "/c.ts"] ∧
    ¬ (((walkAndMatchPath fsB "/" [RTok.star RItem.anyChar] [] (5 / 2)).length : ℚ) ≤ 5 / 2) ∧
    searchFilesTool.handler fsB argsB =
      Except.ok (ok ("Found 3 match(es) for \x27*\x27 in \x27/\x27:\n  /a.ts\n  /b.ts\n  /c.ts"))) := by
  have h1 : fsC9.lookup "/node_modules" =
      some (.dir dirStat0 [("a.ts", .file fileStat0 "x")]) := rfl
  have hr : ∀ p, fsC9.readable p = true := fun _ => rfl
  have hwalk : walkAndMatchPath fsC9 "/node_modules" [RTok.star RItem.anyChar] [] 50 =
      ["/node_modules/a.ts"] := by
    simp only [walkAndMatchPath, h1]
    rw [walkAndMatch.eq_def]
    norm_num [hr]
    rw [walkChildren.eq_def]
    norm_num [regexTest, testFrom, matchToks, itemMatches]
    rw [walkChildren.eq_def]
    decide
  have h1B : fsB.lookup "/" = some (.dir dirStat0
      [("a.ts", .file fileStat0 "x"),
       ("b.ts", .file fileStat0 "x"),
       ("c.ts", .file fileStat0 "x")]) := rfl
  have hrB : ∀ p, fsB.readable p = true := fun _ => rfl
  have hwalkB : walkAndMatchPath fsB "/" [RTok.star RItem.anyChar] [] (5 / 2) =
      ["/a.ts", "/b.ts", "/c.ts"] := by
    simp only [walkAndMatchPath, h1B]
    rw [walkAndMatch.eq_def]
    norm_num [hrB]
    rw [walkChildren.eq_def]
    norm_num [regexTest, testFrom, matchToks, itemMatches]
    rw [walkChildren.eq_def]
    norm_num [regexTest, testFrom, matchToks, itemMatches]
    rw [walkChildren.eq_def]
    norm_num [regexTest, testFrom, matchToks, itemMatches]
    rw [walkChildren.eq_def]
    decide
  refine ⟨⟨hwalk, ⟨"/", "a.ts", by decide, Or.inr (by decide)⟩, ?_⟩,
    hwalkB, by rw [hwalkB]; norm_num, ?_⟩
  · rw [searchFiles_handler_eval fsC9 argsC9 "/node_modules" "*" [RTok.star RItem.anyChar]
      rfl rfl rfl]
    rw [show resolvePath fsC9.cwd "/node_modules" = "/node_modules" from rfl]
    rw [show getNumD argsC9 "maxResults" 50 = 50 from rfl]
    rw [hwalk]
    rfl
  · rw [searchFiles_handler_eval fsB argsB "/" "*" [RTok.star RItem.anyChar]
      rfl rfl rfl]
    rw [show resolvePath fsB.cwd "/" = "/" from rfl]
    rw [show getNumD argsB "maxResults" 50 = 5 / 2 from rfl]
    rw [hwalkB]
    rfl

/-- Claim C9 (amended): for every `search_files` walk with bound `n`
(default 50 when `maxResults` is absent): the result list has length at
most `max 0 ⌈n⌉` — which is `n` itself for the integral `n ≥ 0` the schema
intends, but exceeds a fractional `n`, as the counterexample shows; the
walk is unchanged by pruning every directory named `node_modules`, `.git`,
`dist` or `.cache` below its root (so no file reached by descending
through such a directory is included — though files are still returned
when the search root itself lies inside one); an unreadable directory
contributes nothing and causes no failure; and the handler's reply is
built exactly from that walk. -/
theorem c9_search_files_bound_and_pruning :
    (∀ (fs : FS) (dir : String) (rx : List RTok) (m : ℚ),
      ((walkAndMatchPath fs dir rx [] m).length : Int) ≤ max 0 ⌈m⌉) ∧
    (∀ (fs : FS) (node : FSNode) (dir : String) (rx : List RTok) (results : List String)
        (m : ℚ),
      walkAndMatch fs (pruneTree node) dir rx results m =
        walkAndMatch fs node dir rx results m) ∧
    (∀ (fs : FS) (dir : String) (rx : List RTok) (m : ℚ),
      fs.readable dir = false → walkAndMatchPath fs dir rx [] m = []) ∧
    (∀ (fs : FS) (args : ToolArgs) (d p : String) (rx : List RTok),
      getArg args "directory" = some (JVal.str d) →
      getArg args "pattern" = some (JVal.str p) →
      compileRegex (replaceStars (escapeRegexChars p)) = .ok rx →
      searchFilesTool.handler fs args = Except.ok (
        if (walkAndMatchPath fs (resolvePath fs.cwd d) rx []
              (getNumD args "maxResults" 50)).isEmpty then
          ok ("No files matching " ++ quoted p ++ " found in " ++
            quoted (resolvePath fs.cwd d) ++ ".")
        else
          ok ("Found " ++
            natStr (walkAndMatchPath fs (resolvePath fs.cwd d) rx []
              (getNumD args "maxResults" 50)).length ++
            " match(es) for " ++ quoted p ++ " in " ++ quoted (resolvePath fs.cwd d) ++
            ":\n" ++
            joinSep "\n" ((walkAndMatchPath fs (resolvePath fs.cwd d) rx []
              (getNumD args "maxResults" 50)).map (fun r => "  " ++ r))))) := by
  refine ⟨?_, fun fs node dir rx results m => walkAndMatch_prune fs node dir rx results m,
    ?_, fun fs args d p rx hd hp hc => searchFiles_handler_eval fs args d p rx hd hp hc⟩
  · intro fs dir rx m
    unfold walkAndMatchPath
    cases hlo : fs.lookup dir with
    | none =>
      have := le_max_left (0 : Int) ⌈m⌉
      simp only [List.length_nil]
      omega
    | some node =>
      dsimp only
      have h := walkAndMatch_length fs node dir rx [] m
      simp only [List.length_nil, Int.ofNat_zero] at h
      omega
  · intro fs dir rx m h
    unfold walkAndMatchPath
    cases hlo : fs.lookup dir with
    | none => rfl
    | some node => exact walkAndMatch_unreadable fs node dir rx [] m h

/-- Witness for C9 (amended) at concrete inputs: the bound, the unreadable
skip, and the handler reply on the sample filesystems. -/
theorem c9_search_files_bound_and_pruning_witness :
    ((walkAndMatchPath wFS "/" [RTok.star RItem.anyChar] [] 1).length : Int) ≤
      max 0 ⌈(1 : ℚ)⌉ ∧
    walkAndMatchPath fsNoRead "/" [RTok.star RItem.anyChar] [] 50 = [] ∧
    walkAndMatch fsC9 (pruneTree fsC9.root) "/" [RTok.star RItem.anyChar] [] 50 =
      walkAndMatch fsC9 fsC9.root "/" [RTok.star RItem.anyChar] [] 50 ∧
    searchFilesTool.handler fsC9 argsC9 = Except.ok (
      if (walkAndMatchPath fsC9 (resolvePath fsC9.cwd "/node_modules")
            [RTok.star RItem.anyChar] [] (getNumD argsC9 "maxResults" 50)).isEmpty then
        ok ("No files matching " ++ quoted "*" ++ " found in " ++
          quoted (resolvePath fsC9.cwd "/node_modules") ++ ".")
      else
        ok ("Found " ++
          natStr (walkAndMatchPath fsC9 (resolvePath fsC9.cwd "/node_modules")
            [RTok.star RItem.anyChar] [] (getNumD argsC9 "maxResults" 50)).length ++
          " match(es) for " ++ quoted "*" ++ " in " ++
          quoted (resolvePath fsC9.cwd "/node_modules") ++ ":\n" ++
          joinSep "\n" ((walkAndMatchPath fsC9 (resolvePath fsC9.cwd "/node_modules")
            [RTok.star RItem.anyChar] [] (getNumD argsC9 "maxResults" 50)).map
              (fun r => "  " ++ r)))) :=
  ⟨c9_search_files_bound_and_pruning.1 wFS "/" [RTok.star RItem.anyChar] 1,
   c9_search_files_bound_and_pruning.2.2.1 fsNoRead "/" [RTok.star RItem.anyChar] 50 rfl,
   c9_search_files_bound_and_pruning.2.1 fsC9 fsC9.root "/" [RTok.star RItem.anyChar] [] 50,
   c9_search_files_bound_and_pruning.2.2.2 fsC9 argsC9 "/node_modules" "*"
     [RTok.star RItem.anyChar] rfl rfl rfl⟩

-- ===========================================================================
-- C7 — framing round-trip: digit lemmas
-- ===========================================================================

theorem digitCh_isDigit (d : Nat) : (digitCh d).isDigit = true := by
  unfold digitCh
  split_ifs <;> decide

theorem digitCh_val (d : Nat) (h : d < 10) : (digitCh d).toNat - 48 = d := by
  interval_cases d <;> decide

theorem natDigitsAux_fuel (b2 : Nat) :
    ∀ fuel n acc, n ≤ fuel → natDigitsAux b2 fuel n acc = natDigitsAux b2 n n acc := by
  intro fuel
  induction fuel using Nat.strong_induction_on with
  | _ fuel ih =>
    intro n acc h
    match fuel, h with
    | 0, h =>
      interval_cases n
      rfl
    | f + 1, h =>
      cases n with
      | zero => rfl
      | succ n2 =>
        have hq : (n2 + 1) / (b2 + 2) ≤ n2 := by
          have := Nat.div_lt_self (show 0 < n2 + 1 by omega) (show 1 < b2 + 2 by omega)
          omega
        have hq2 : Nat.succ n2 / (b2 + 2) ≤ n2 := hq
        rw [natDigitsAux, natDigitsAux]
        rw [ih f (by omega) _ _ (by omega), ih n2 (by omega) _ _ (by omega)]

theorem natDigitsAux_append (b2 : Nat) :
    ∀ n acc, natDigitsAux b2 n n acc = natDigitsAux b2 n n [] ++ acc := by
  intro n
  induction n using Nat.strong_induction_on with
  | _ n ih =>
    intro acc
    cases n with
    | zero => rfl
    | succ n2 =>
      have hq : (n2 + 1) / (b2 + 2) ≤ n2 := by
        have := Nat.div_lt_self (show 0 < n2 + 1 by omega) (show 1 < b2 + 2 by omega)
        omega
      have hq2 : Nat.succ n2 / (b2 + 2) ≤ n2 := hq
      rw [natDigitsAux, natDigitsAux]
      rw [natDigitsAux_fuel b2 n2 _ _ (by omega), natDigitsAux_fuel b2 n2 _ _ (by omega)]
      rw [ih _ (by omega) (digitCh ((n2 + 1) % (b2 + 2)) :: acc),
        ih _ (by omega) [digitCh ((n2 + 1) % (b2 + 2))]]
      simp [List.append_assoc]

theorem digitsToNat_append_single (l : List Char) (c : Char) :
    digitsToNat (l ++ [c]) = digitsToNat l * 10 + (c.toNat - 48) := by
  simp [digitsToNat, List.foldl_append]

theorem natDigitsAux_core_eq (n2 : Nat) :
    natDigitsAux 8 (n2 + 1) (n2 + 1) [] =
      natDigitsAux 8 ((n2 + 1) / 10) ((n2 + 1) / 10) [] ++ [digitCh ((n2 + 1) % 10)] := by
  have hq : (n2 + 1) / 10 ≤ n2 := by
    have := Nat.div_lt_self (show 0 < n2 + 1 by omega) (show 1 < 10 by omega)
    omega
  rw [natDigitsAux]
  rw [show (8 : Nat) + 2 = 10 from rfl]
  rw [natDigitsAux_fuel 8 n2 _ _ (by omega)]
  rw [natDigitsAux_append 8 ((n2 + 1) / 10) [digitCh ((n2 + 1) % 10)]]

theorem digitsToNat_core : ∀ n, digitsToNat (natDigitsAux 8 n n []) = n := by
  intro n
  induction n using Nat.strong_induction_on with
  | _ n ih =>
    cases n with
    | zero => rfl
    | succ n2 =>
      have hq : (n2 + 1) / 10 < n2 + 1 :=
        Nat.div_lt_self (by omega) (by omega)
      rw [natDigitsAux_core_eq n2, digitsToNat_append_single, ih _ hq,
        digitCh_val _ (Nat.mod_lt _ (by omega))]
      omega

theorem digitsToNat_natDigits (n : Nat) : digitsToNat (natDigits n) = n := by
  by_cases hn : n = 0
  · subst hn; rfl
  · unfold natDigits natDigitsBase
    rw [if_neg hn]
    exact digitsToNat_core n

theorem natDigits_core_all_digits :
    ∀ n, ∀ c ∈ natDigitsAux 8 n n [], c.isDigit = true := by
  intro n
  induction n using Nat.strong_induction_on with
  | _ n ih =>
    cases n with
    | zero => intro c hc; simp [natDigitsAux] at hc
    | succ n2 =>
      intro c hc
      rw [natDigitsAux_core_eq n2] at hc
      rcases List.mem_append.mp hc with h | h
      · exact ih _ (Nat.div_lt_self (by omega) (by omega)) c h
      · simp only [List.mem_singleton] at h
        subst h
        exact digitCh_isDigit _


theorem natDigits_all_digits (n : Nat) : ∀ c ∈ natDigits n, c.isDigit = true := by
  by_cases hn : n = 0
  · subst hn; intro c hc; simp [natDigits, natDigitsBase] at hc; subst hc; decide
  · unfold natDigits natDigitsBase
    rw [if_neg hn]
    exact natDigits_core_all_digits n

theorem natDigits_head (n : Nat) :
    ∃ c cs, natDigits n = c :: cs ∧ c.isDigit = true := by
  have hne : natDigits n ≠ [] := by
    by_cases hn : n = 0
    · subst hn; simp [natDigits, natDigitsBase]
    · unfold natDigits natDigitsBase
      rw [if_neg hn]
      cases n with
      | zero => exact absurd rfl hn
      | succ n2 =>
        rw [natDigitsAux_core_eq n2]
        simp
  obtain ⟨c, cs, hc⟩ := List.exists_cons_of_ne_nil hne
  exact ⟨c, cs, hc, natDigits_all_digits n c (by rw [hc]; simp)⟩

theorem takeWhile_append_of_all (p : Char → Bool) :
    ∀ (l1 l2 : List Char), (∀ c ∈ l1, p c = true) →
      (∀ c, l2.head? = some c → p c = false) →
      (l1 ++ l2).takeWhile p = l1 ∧ (l1 ++ l2).dropWhile p = l2 := by
  intro l1
  induction l1 with
  | nil =>
    intro l2 _ h2
    cases l2 with
    | nil => exact ⟨rfl, rfl⟩
    | cons c r =>
      have := h2 c rfl
      simp [List.takeWhile_cons, List.dropWhile_cons, this]
  | cons c l1' ih =>
    intro l2 h1 h2
    have hc : p c = true := h1 c (by simp)
    have := ih l2 (fun c2 hc2 => h1 c2 (by simp [hc2])) h2
    simp [List.takeWhile_cons, List.dropWhile_cons, hc, this.1, this.2]

theorem parseNatChars_encNat (n : Nat) (rest : List Char)
    (hrest : ∀ c, rest.head? = some c → c.isDigit = false) :
    parseNatChars (natDigits n ++ rest) = some (n, rest) := by
  obtain ⟨ht, hd⟩ := takeWhile_append_of_all Char.isDigit (natDigits n) rest
    (natDigits_all_digits n) hrest
  obtain ⟨c, cs, hc, _⟩ := natDigits_head n
  simp only [parseNatChars, ht, hd]
  rw [if_neg (by rw [hc]; simp)]
  rw [digitsToNat_natDigits]

theorem parseIntChars_encInt (n : Int) (rest : List Char)
    (hrest : ∀ c, rest.head? = some c → c.isDigit = false) :
    parseIntChars (encInt n ++ rest) = some (n, rest) := by
  by_cases hn : n < 0
  · simp only [encInt, hn, if_true, List.cons_append]
    rw [show parseIntChars ('-' :: (natDigits n.natAbs ++ rest)) =
      (parseNatChars (natDigits n.natAbs ++ rest)).map (fun p => (-(p.1 : Int), p.2)) from rfl]
    rw [parseNatChars_encNat _ rest hrest]
    simp only [Option.map_some']
    have h2 : -((n.natAbs : Nat) : Int) = n := by omega
    rw [h2]
  · simp only [encInt, hn, if_false]
    obtain ⟨c, cs, hc, hdig⟩ := natDigits_head n.toNat
    have hcne : c ≠ '-' := by
      intro h
      subst h
      exact Bool.noConfusion hdig
    rw [hc, List.cons_append, parseIntChars.eq_def]
    split
    · rename_i r heq
      rw [List.cons.injEq] at heq
      exact absurd heq.1 hcne
    · rw [← List.cons_append, ← hc, parseNatChars_encNat _ rest hrest]
      simp only [Option.map_some']
      have h2 : ((n.toNat : Nat) : Int) = n := by omega
      rw [h2]

theorem expectLit_append : ∀ (pat rest : List Char), expectLit pat (pat ++ rest) = some rest := by
  intro pat
  induction pat with
  | nil => intro rest; rfl
  | cons p ps ih =>
    intro rest
    simp only [List.cons_append, expectLit, if_pos rfl]
    exact ih rest

theorem parseStringBody_escBody :
    ∀ (cs rest : List Char), parseStringBody (escBody cs ++ rest) = some (cs, rest) := by
  intro cs
  induction cs with
  | nil =>
    intro rest
    rw [escBody, parseStringBody.eq_def]
    simp
  | cons c cs' ih =>
    intro rest
    rw [escBody, List.append_assoc]
    by_cases h1 : c = '"'
    · subst h1
      rw [parseStringBody.eq_def]
      simp [escapeChar, unescapeChar, ih rest]
    · by_cases h2 : c = '\\'
      · subst h2
        rw [parseStringBody.eq_def]
        simp [escapeChar, unescapeChar, ih rest]
      · by_cases h3 : c = '\n'
        · subst h3
          rw [parseStringBody.eq_def]
          simp [escapeChar, unescapeChar, ih rest]
        · by_cases h4 : c = '\r'
          · subst h4
            rw [parseStringBody.eq_def]
            simp [escapeChar, unescapeChar, ih rest]
          · by_cases h5 : c = '\t'
            · subst h5
              rw [parseStringBody.eq_def]
              simp [escapeChar, unescapeChar, ih rest]
            · have hesc : escapeChar c = [c] := by
                simp [escapeChar, h1, h2, h3, h4, h5]
              rw [hesc, List.singleton_append, parseStringBody.eq_def]
              simp [h1, h2, ih rest]

theorem stringMk_data (s : String) : String.mk s.data = s := by
  cases s
  rfl

theorem one_le_nfV (v : JsonValue) : 1 ≤ nfV v := by
  cases v <;> simp [nfV]

theorem one_le_nfL (xs : JsonList) : 1 ≤ nfL xs := by
  cases xs with
  | nil => simp [nfL]
  | cons v tl => cases tl <;> simp [nfL]

theorem one_le_nfF (fields : JsonFields) : 1 ≤ nfF fields := by
  cases fields with
  | nil => simp [nfF]
  | cons k v tl => cases tl <;> simp [nfF]

theorem encV_head (v : JsonValue) :
    ∃ c cs, encV v = c :: cs ∧ c ≠ ']' ∧ c ≠ rbrace := by
  cases v with
  | null => exact ⟨'n', _, rfl, by decide, by decide⟩
  | bool b => cases b with
    | true => exact ⟨'t', _, rfl, by decide, by decide⟩
    | false => exact ⟨'f', _, rfl, by decide, by decide⟩
  | num n =>
    by_cases hn : n < 0
    · refine ⟨'-', natDigits n.natAbs, ?_, by decide, by decide⟩
      simp [encV, encInt, hn]
    · obtain ⟨c, cs, hc, hdig⟩ := natDigits_head n.toNat
      refine ⟨c, cs, ?_, ?_, ?_⟩
      · simp [encV, encInt, hn, hc]
      · intro h; subst h; exact Bool.noConfusion hdig
      · intro h; subst h; exact Bool.noConfusion hdig
  | str s => exact ⟨'"', _, rfl, by decide, by decide⟩
  | arr xs => exact ⟨'[', _, rfl, by decide, by decide⟩
  | obj fields => exact ⟨lbrace, _, rfl, by decide, by decide⟩

theorem parse_enc_all : ∀ fuel : Nat,
    (∀ (v : JsonValue) (rest : List Char),
      nfV v ≤ fuel → (∀ c, rest.head? = some c → c.isDigit = false) →
      parseVal fuel (encV v ++ rest) = some (v, rest)) ∧
    (∀ (xs : JsonList) (rest : List Char),
      nfL xs ≤ fuel → parseItems fuel (encList xs ++ rest) = some (xs, rest)) ∧
    (∀ (fields : JsonFields) (rest : List Char),
      nfF fields ≤ fuel → parseFieldsP fuel (encFields fields ++ rest) = some (fields, rest)) := by
  intro fuel
  induction fuel with
  | zero =>
    refine ⟨fun v _ hf _ => absurd hf (by have := one_le_nfV v; omega),
      fun xs _ hf => absurd hf (by have := one_le_nfL xs; omega),
      fun fields _ hf => absurd hf (by have := one_le_nfF fields; omega)⟩
  | succ fuel ih =>
    obtain ⟨ihV, ihL, ihF⟩ := ih
    refine ⟨?_, ?_, ?_⟩
    · intro v rest hf hrest
      cases v with
      | null =>
        have he : expectLit ['u', 'l', 'l'] ('u' :: 'l' :: 'l' :: rest) = some rest :=
          expectLit_append ['u', 'l', 'l'] rest
        rw [show encV .null = ['n', 'u', 'l', 'l'] from rfl, List.cons_append, parseVal.eq_def]
        simp [he]
      | bool b =>
        cases b with
        | true =>
          have he : expectLit ['r', 'u', 'e'] ('r' :: 'u' :: 'e' :: rest) = some rest :=
            expectLit_append ['r', 'u', 'e'] rest
          rw [show encV (.bool true) = ['t', 'r', 'u', 'e'] from rfl, List.cons_append,
            parseVal.eq_def]
          simp [he]
        | false =>
          have he : expectLit ['a', 'l', 's', 'e'] ('a' :: 'l' :: 's' :: 'e' :: rest) =
              some rest :=
            expectLit_append ['a', 'l', 's', 'e'] rest
          rw [show encV (.bool false) = ['f', 'a', 'l', 's', 'e'] from rfl, List.cons_append,
            parseVal.eq_def]
          simp [he]
      | num n =>
        by_cases hn : n < 0
        · have hp := parseNatChars_encNat n.natAbs rest hrest
          have habs : -|n| = n := by rw [abs_of_neg hn]; omega
          rw [show encV (.num n) = '-' :: natDigits n.natAbs from by simp [encV, encInt, hn]]
          rw [List.cons_append, parseVal.eq_def]
          simp [hp, habs, lbrace]
        · obtain ⟨c, cs, hc, hdig⟩ := natDigits_head n.toNat
          have h1 : ¬ (c = 'n') := fun h => by subst h; exact Bool.noConfusion hdig
          have h2 : ¬ (c = 't') := fun h => by subst h; exact Bool.noConfusion hdig
          have h3 : ¬ (c = 'f') := fun h => by subst h; exact Bool.noConfusion hdig
          have h4 : ¬ (c = '"') := fun h => by subst h; exact Bool.noConfusion hdig
          have h5 : ¬ (c = '[') := fun h => by subst h; exact Bool.noConfusion hdig
          have h6 : ¬ (c = lbrace) := fun h => by subst h; exact Bool.noConfusion hdig
          have h7 : ¬ (c = '-') := fun h => by subst h; exact Bool.noConfusion hdig
          have hp : parseNatChars (c :: (cs ++ rest)) = some (n.toNat, rest) := by
            rw [← List.cons_append, ← hc]
            exact parseNatChars_encNat n.toNat rest hrest
          have hofnat : ((n.toNat : Nat) : Int) = n := by omega
          rw [show encV (.num n) = natDigits n.toNat from by simp [encV, encInt, hn], hc,
            List.cons_append, parseVal.eq_def]
          simp [h1, h2, h3, h4, h5, h6, h7, hdig, hp, hofnat]
      | str s =>
        have hp := parseStringBody_escBody s.data rest
        rw [show encV (.str s) = '"' :: escBody s.data from rfl, List.cons_append,
          parseVal.eq_def]
        simp [hp, stringMk_data]
      | arr xs =>
        have hi := ihL xs rest (by simp [nfV] at hf; omega)
        rw [show encV (.arr xs) = '[' :: encList xs from rfl, List.cons_append, parseVal.eq_def]
        simp [hi]
      | obj fields =>
        have hi := ihF fields rest (by simp [nfV] at hf; omega)
        rw [show encV (.obj fields) = lbrace :: encFields fields from rfl, List.cons_append,
          parseVal.eq_def]
        simp [lbrace, hi]
    · intro xs rest hf
      cases xs with
      | nil =>
        rw [show encList .nil = [']'] from rfl, List.singleton_append, parseItems.eq_def]
        simp
      | cons v tl =>
        cases tl with
        | nil =>
          obtain ⟨c, cs, hc, hc1, _⟩ := encV_head v
          have hv := ihV v (']' :: rest) (by simp [nfL] at hf; omega)
            (by intro c2 h; simp at h; subst h; decide)
          have hhead : (encV v ++ (']' :: rest)).head? = some c := by rw [hc]; rfl
          rw [encList, List.append_assoc, List.singleton_append, parseItems.eq_def]
          simp [hhead, hc1, hv]
        | cons v2 tl2 =>
          obtain ⟨c, cs, hc, hc1, _⟩ := encV_head v
          have hnf : nfV v ≤ fuel ∧ nfL (.cons v2 tl2) ≤ fuel := by
            simp [nfL] at hf; omega
          have hv := ihV v (',' :: (encList (.cons v2 tl2) ++ rest)) hnf.1
            (by intro c2 h; simp at h; subst h; decide)
          have hi := ihL (.cons v2 tl2) rest hnf.2
          have hhead : (encV v ++ (',' :: (encList (.cons v2 tl2) ++ rest))).head? = some c := by
            rw [hc]; rfl
          rw [encList, List.append_assoc, List.cons_append, parseItems.eq_def]
          simp [hhead, hc1, hv, hi]
    · intro fields rest hf
      cases fields with
      | nil =>
        rw [show encFields .nil = [rbrace] from rfl, List.singleton_append, parseFieldsP.eq_def]
        simp
      | cons k v tl =>
        cases tl with
        | nil =>
          have hk := parseStringBody_escBody k.data (':' :: (encV v ++ (rbrace :: rest)))
          have hv := ihV v (rbrace :: rest) (by simp [nfF] at hf; omega)
            (by intro c2 h; simp at h; subst h; decide)
          rw [encFields, encStr]
          rw [show ('"' :: escBody k.data ++ ':' :: encV v ++ [rbrace]) ++ rest =
            '"' :: (escBody k.data ++ (':' :: (encV v ++ (rbrace :: rest)))) from by simp]
          rw [parseFieldsP.eq_def]
          simp [show ¬ ('"' = rbrace) from by decide, show ¬ (rbrace = ',') from by decide,
            hk, hv, stringMk_data]
        | cons k2 v2 tl2 =>
          have hnf : nfV v ≤ fuel ∧ nfF (.cons k2 v2 tl2) ≤ fuel := by
            simp [nfF] at hf; omega
          have hk := parseStringBody_escBody k.data
            (':' :: (encV v ++ (',' :: (encFields (.cons k2 v2 tl2) ++ rest))))
          have hv := ihV v (',' :: (encFields (.cons k2 v2 tl2) ++ rest)) hnf.1
            (by intro c2 h; simp at h; subst h; decide)
          have hi := ihF (.cons k2 v2 tl2) rest hnf.2
          rw [encFields, encStr]
          rw [show ('"' :: escBody k.data ++ ':' :: encV v ++
              ',' :: encFields (.cons k2 v2 tl2)) ++ rest =
            '"' :: (escBody k.data ++ (':' :: (encV v ++
              (',' :: (encFields (.cons k2 v2 tl2) ++ rest))))) from by simp]
          rw [parseFieldsP.eq_def]
          simp [show ¬ ('"' = rbrace) from by decide, hk, hv, hi, stringMk_data]

theorem parseVal_encV (v : JsonValue) (fuel : Nat) (rest : List Char)
    (hf : nfV v ≤ fuel) (hrest : ∀ c, rest.head? = some c → c.isDigit = false) :
    parseVal fuel (encV v ++ rest) = some (v, rest) :=
  (parse_enc_all fuel).1 v rest hf hrest

theorem one_le_encInt_len (n : Int) : 1 ≤ (encInt n).length := by
  unfold encInt
  split
  · simp
  · obtain ⟨c, cs, hc, _⟩ := natDigits_head n.toNat
    rw [hc]
    simp

mutual

theorem nfV_le_encV : ∀ v : JsonValue, nfV v ≤ (encV v).length
  | .null => by simp [nfV, encV]
  | .bool b => by cases b <;> simp [nfV, encV]
  | .num n => by
    have := one_le_encInt_len n
    simp only [nfV, encV]
    omega
  | .str s => by simp [nfV, encV, encStr]
  | .arr xs => by
    have := nfL_le_encList xs
    simp only [nfV, encV, List.length_cons]
    omega
  | .obj fields => by
    have := nfF_le_encFields fields
    simp only [nfV, encV, List.length_cons]
    omega

theorem nfL_le_encList : ∀ xs : JsonList, nfL xs ≤ (encList xs).length
  | .nil => by simp [nfL, encList]
  | .cons v .nil => by
    have := nfV_le_encV v
    simp only [nfL, encList, List.length_append, List.length_singleton]
    omega
  | .cons v (.cons v2 tl) => by
    have h1 := nfV_le_encV v
    have h2 := nfL_le_encList (.cons v2 tl)
    simp only [nfL, encList, List.length_append, List.length_cons]
    omega

theorem nfF_le_encFields : ∀ fields : JsonFields, nfF fields ≤ (encFields fields).length
  | .nil => by simp [nfF, encFields]
  | .cons k v .nil => by
    have := nfV_le_encV v
    simp only [nfF, encFields, List.length_append, List.length_cons, List.length_singleton]
    omega
  | .cons k v (.cons k2 v2 tl) => by
    have h1 := nfV_le_encV v
    have h2 := nfF_le_encFields (.cons k2 v2 tl)
    simp only [nfF, encFields, List.length_append, List.length_cons]
    omega

end

theorem encInt_head (n : Int) : ∃ c cs, encInt n = c :: cs ∧ ¬ (c = '"') := by
  by_cases hn : n < 0
  · exact ⟨'-', natDigits n.natAbs, by simp [encInt, hn], by decide⟩
  · obtain ⟨c, cs, hc, hdig⟩ := natDigits_head n.toNat
    refine ⟨c, cs, by simp [encInt, hn, hc], ?_⟩
    intro h
    subst h
    exact Bool.noConfusion hdig

theorem parseId_encId (i : ReqId) (rest : List Char)
    (hrest : ∀ c, rest.head? = some c → c.isDigit = false) :
    parseId (encId i ++ rest) = some (i, rest) := by
  cases i with
  | str s =>
    have hp := parseStringBody_escBody s.data rest
    rw [show encId (.str s) = '"' :: escBody s.data from rfl, List.cons_append, parseId.eq_def]
    simp [hp, stringMk_data]
  | num n =>
    obtain ⟨c, cs, hc, hc4⟩ := encInt_head n
    have hp : parseIntChars (c :: (cs ++ rest)) = some (n, rest) := by
      rw [← List.cons_append, ← hc]
      exact parseIntChars_encInt n rest hrest
    rw [show encId (.num n) = encInt n from rfl, hc, List.cons_append, parseId.eq_def]
    simp [hc4, hp]

theorem expectLit_result_error (z : List Char) :
    expectLit frameResultSep (frameErrorSep ++ z) = none := rfl

/-- Claim C7: encoding a Response through the framing layer and decoding the
produced bytes yields the identical message — same id and same
result-or-error payload. -/
theorem c7_framing_roundtrip : ∀ m : ResponseMsg, decodeFrame (encodeFrame m) = some m := by
  intro m
  obtain ⟨id, payload⟩ := m
  have hdata : ∀ l : List Char, (String.mk l).data = l := fun _ => rfl
  cases payload with
  | result v =>
    have hid := parseId_encId id (frameResultSep ++ (encV v ++ [rbrace, '\n']))
      (by intro c h
          rw [show (frameResultSep ++ (encV v ++ [rbrace, '\n'])).head? = some ',' from rfl] at h
          cases h
          decide)
    have hv := parseVal_encV v ((encV v).length + 2 + 1) [rbrace, '\n']
      (by have := nfV_le_encV v; simp [List.length_append]; omega)
      (by intro c h; simp at h; subst h; decide)
    simp only [decodeFrame, encodeFrame, encodeResponse, hdata, List.append_assoc,
      List.cons_append, List.nil_append]
    simp [expectLit_append, hid, hv]
  | error code msg =>
    have hid := parseId_encId id
      (frameErrorSep ++ (encInt code ++ (frameMessageSep ++
        ('"' :: (escBody msg.data ++ [rbrace, rbrace, '\n'])))))
      (by intro c h
          rw [show (frameErrorSep ++ (encInt code ++ (frameMessageSep ++
            ('"' :: (escBody msg.data ++ [rbrace, rbrace, '\n']))))).head? =
            some ',' from rfl] at h
          cases h
          decide)
    have hcode := parseIntChars_encInt code
      (frameMessageSep ++ ('"' :: (escBody msg.data ++ [rbrace, rbrace, '\n'])))
      (by intro c h
          rw [show (frameMessageSep ++ ('"' :: (escBody msg.data ++
            [rbrace, rbrace, '\n']))).head? = some ',' from rfl] at h
          cases h
          decide)
    have hmsg := parseStringBody_escBody msg.data [rbrace, rbrace, '\n']
    simp only [decodeFrame, encodeFrame, encodeResponse, hdata,
      show encStr msg = '"' :: escBody msg.data from rfl, List.append_assoc,
      List.cons_append, List.nil_append]
    simp [expectLit_append, hid, expectLit_result_error, hcode, hmsg, stringMk_data]
